import Mathlib

/-!
Verification development for the MiroFish report-generation backend
(`backend/app/services/report_agent.py`, `zep_tools.py`,
`zep_graph_memory_updater.py`).

The Python sources are shallowly embedded: text is modelled as `List Char`
(`Str`), fallible Python code as `Except String`/`Option`, the language-model
and retrieval collaborators as oracle streams supplied per run, and the
on-disk checkpoint store as an association list from file name to file
content.  Python `int(x / n * k)` float truncation on the non-negative
values used here is modelled by exact natural-number floor division, and
`str.lower`/`\s`/`\w` by their ASCII behaviour, which covers every input
exercised by the development.
-/

set_option maxRecDepth 20000

/-! ## Text utilities (Python string operations on `List Char`) -/

/-- Text is a list of characters; Python `str` values are embedded as such. -/
abbrev Str := List Char

/-- The characters accepted by Python's `\s` class and `str.strip` (ASCII part). -/
def pyIsSpace (c : Char) : Bool :=
  c = ' ' || c = '\t' || c = '\n' || c = '\r' || c = Char.ofNat 11 || c = Char.ofNat 12

/-- The characters accepted by Python's `\w` class (ASCII part). -/
def pyIsWord (c : Char) : Bool :=
  (c ≥ 'a' && c ≤ 'z') || (c ≥ 'A' && c ≤ 'Z') || (c ≥ '0' && c ≤ '9') || c = '_'

/-- Python decimal digit test. -/
def pyIsDigit (c : Char) : Bool := c ≥ '0' && c ≤ '9'

/-- Python `str.strip()` (ASCII whitespace). -/
def pyStrip (s : Str) : Str :=
  ((s.dropWhile pyIsSpace).reverse.dropWhile pyIsSpace).reverse

/-- Python `pat in s` substring containment. -/
def containsSub (pat : Str) : Str → Bool
  | [] => pat.isPrefixOf []
  | c :: t => pat.isPrefixOf (c :: t) || containsSub pat t

/-- Python `s.split(pat)` for a non-empty separator: non-overlapping,
left-to-right.  `fuel` bounds the recursion by the input length. -/
def splitSubGo (pat : Str) : Nat → Str → Str → List Str
  | 0, acc, s => [acc.reverse ++ s]
  | _ + 1, acc, [] => [acc.reverse]
  | fuel + 1, acc, c :: t =>
    if pat.isPrefixOf (c :: t) then
      acc.reverse :: splitSubGo pat fuel [] ((c :: t).drop pat.length)
    else
      splitSubGo pat fuel (c :: acc) t

/-- Python `s.split(pat)` (non-empty `pat`). -/
def splitSub (pat s : Str) : List Str :=
  splitSubGo pat (s.length + 1) [] s

/-- Python `s.split(pat)[-1]`: the text after the last occurrence of `pat`. -/
def afterLastSub (pat s : Str) : Str :=
  (splitSub pat s).getLastD s

/-- Python `s.replace(old, new)` for a non-empty `old` (all occurrences). -/
def pyReplaceGo (old new : Str) : Nat → Str → Str
  | 0, s => s
  | _ + 1, [] => []
  | fuel + 1, c :: t =>
    if old.isPrefixOf (c :: t) then
      new ++ pyReplaceGo old new fuel ((c :: t).drop old.length)
    else
      c :: pyReplaceGo old new fuel t

/-- Python `s.replace(old, new)` (non-empty `old`). -/
def pyReplace (old new s : Str) : Str :=
  pyReplaceGo old new (s.length + 1) s

/-- Python `s.split()`: split on runs of whitespace, dropping empty pieces. -/
def splitWsGo : Nat → Str → List Str
  | 0, _ => []
  | _ + 1, [] => []
  | fuel + 1, s =>
    let s' := s.dropWhile pyIsSpace
    match s' with
    | [] => []
    | c :: t =>
      let word := (c :: t).takeWhile (fun x => !pyIsSpace x)
      word :: splitWsGo fuel ((c :: t).dropWhile (fun x => !pyIsSpace x))

/-- Python `s.split()` (whitespace split). -/
def splitWs (s : Str) : List Str :=
  splitWsGo (s.length + 1) s

/-- Python `str.lower()` (ASCII letters). -/
def pyLower (s : Str) : Str := s.map Char.toLower

/-- Decimal digits of a natural number, as characters. -/
def natDigits (n : Nat) : Str := Nat.toDigits 10 n

/-- Python `f"{n:02d}"`: decimal form padded to at least two digits. -/
def pad2 (n : Nat) : Str :=
  let d := natDigits n
  if d.length < 2 then '0' :: d else d

/-- Python `int(s)` restricted to plain digit strings; `none` models the
`ValueError` raised on anything else. -/
def parseNatDigits (s : Str) : Option Nat :=
  if s.isEmpty then none
  else if s.all pyIsDigit then
    some (s.foldl (fun acc c => acc * 10 + (c.toNat - '0'.toNat)) 0)
  else none

/-- Boolean test that a list of integers is non-decreasing. -/
def chainLe : List Int → Bool
  | [] => true
  | [_] => true
  | a :: b :: t => decide (a ≤ b) && chainLe (b :: t)

/-! ## JSON values and `json.loads`

`Json` mirrors the values produced by Python's `json.loads`; numbers keep
their literal text (their numeric value is never consumed by this code).
Objects are built with first-position/last-value semantics like a Python
dict. -/

inductive Json where
  | null
  | bool (b : Bool)
  | num (lit : Str)
  | str (s : Str)
  | arr (elems : List Json)
  | obj (fields : List (Str × Json))

/-- Python dict assignment `d[k] = v`: keep first position, overwrite value. -/
def dictInsert {α : Type} (kvs : List (Str × α)) (k : Str) (v : α) : List (Str × α) :=
  if kvs.any (fun p => p.1 == k) then
    kvs.map (fun p => if p.1 == k then (p.1, v) else p)
  else
    kvs ++ [(k, v)]

/-- JSON inter-token whitespace. -/
def jsonWs (s : Str) : Str :=
  s.dropWhile (fun c => c = ' ' || c = '\t' || c = '\n' || c = '\r')

/-- Hex digit value. -/
def hexVal (c : Char) : Option Nat :=
  if pyIsDigit c then some (c.toNat - '0'.toNat)
  else if c ≥ 'a' && c ≤ 'f' then some (c.toNat - 'a'.toNat + 10)
  else if c ≥ 'A' && c ≤ 'F' then some (c.toNat - 'A'.toNat + 10)
  else none

/-- Parse the body of a JSON string literal after the opening quote.
Escapes follow `json.loads` strict mode: raw control characters are
rejected, `\uXXXX` is decoded through `Char.ofNat`. -/
def parseJsonStr : Nat → Str → Option (Str × Str)
  | 0, _ => none
  | _ + 1, [] => none
  | fuel + 1, c :: t =>
    if c = '"' then some ([], t)
    else if c = '\\' then
      match t with
      | [] => none
      | e :: t' =>
        let cont (ch : Char) (rest : Str) : Option (Str × Str) :=
          match parseJsonStr fuel rest with
          | some (s, r) => some (ch :: s, r)
          | none => none
        if e = '"' then cont '"' t'
        else if e = '\\' then cont '\\' t'
        else if e = '/' then cont '/' t'
        else if e = 'b' then cont (Char.ofNat 8) t'
        else if e = 'f' then cont (Char.ofNat 12) t'
        else if e = 'n' then cont '\n' t'
        else if e = 'r' then cont '\r' t'
        else if e = 't' then cont '\t' t'
        else if e = 'u' then
          match t' with
          | h1 :: h2 :: h3 :: h4 :: t'' =>
            match hexVal h1, hexVal h2, hexVal h3, hexVal h4 with
            | some a, some b, some c', some d =>
              cont (Char.ofNat (((a * 16 + b) * 16 + c') * 16 + d)) t''
            | _, _, _, _ => none
          | _ => none
        else none
    else if c.toNat < 32 then none
    else
      match parseJsonStr fuel t with
      | some (s, r) => some (c :: s, r)
      | none => none

/-- Parse a JSON number literal (returned as its source text). -/
def parseJsonNum (s : Str) : Option (Str × Str) :=
  let (sign, s1) :=
    match s with
    | '-' :: t => (['-'], t)
    | _ => (([] : Str), s)
  match s1 with
  | [] => none
  | c :: _ =>
    if !pyIsDigit c then none
    else
      let intPart :=
        if c = '0' then ['0']
        else s1.takeWhile pyIsDigit
      let rest1 := s1.drop intPart.length
      let (frac, rest2) :=
        match rest1 with
        | '.' :: t =>
          let ds := t.takeWhile pyIsDigit
          if ds.isEmpty then (([] : Str), rest1)
          else ('.' :: ds, t.drop ds.length)
        | _ => (([] : Str), rest1)
      let (expo, rest3) :=
        match rest2 with
        | e :: t =>
          if e = 'e' || e = 'E' then
            let (es, t') :=
              match t with
              | '+' :: u => (['+'], u)
              | '-' :: u => (['-'], u)
              | _ => (([] : Str), t)
            let ds := t'.takeWhile pyIsDigit
            if ds.isEmpty then (([] : Str), rest2)
            else (e :: (es ++ ds), t'.drop ds.length)
          else (([] : Str), rest2)
        | [] => (([] : Str), rest2)
      some (sign ++ intPart ++ frac ++ expo, rest3)

mutual

/-- Parse one JSON value (with leading whitespace), `json.loads` grammar
including the Python extensions `NaN`, `Infinity`, `-Infinity`. -/
def parseJsonVal : Nat → Str → Option (Json × Str)
  | 0, _ => none
  | fuel + 1, s =>
    let s := jsonWs s
    match s with
    | [] => none
    | c :: t =>
      if c = 'n' then
        if ("ull".data).isPrefixOf t then some (Json.null, t.drop 3) else none
      else if c = 't' then
        if ("rue".data).isPrefixOf t then some (Json.bool true, t.drop 3) else none
      else if c = 'f' then
        if ("alse".data).isPrefixOf t then some (Json.bool false, t.drop 4) else none
      else if c = 'N' then
        if ("aN".data).isPrefixOf t then some (Json.num ("NaN".data), t.drop 2) else none
      else if c = 'I' then
        if ("nfinity".data).isPrefixOf t then some (Json.num ("Infinity".data), t.drop 7)
        else none
      else if c = '-' && ("Infinity".data).isPrefixOf t then
        some (Json.num ("-Infinity".data), t.drop 8)
      else if c = '"' then
        match parseJsonStr fuel t with
        | some (str, r) => some (Json.str str, r)
        | none => none
      else if c = Char.ofNat 123 then
        parseJsonObj fuel t
      else if c = '[' then
        parseJsonArr fuel t
      else
        match parseJsonNum (c :: t) with
        | some (lit, r) => some (Json.num lit, r)
        | none => none
termination_by structural fuel => fuel

/-- Parse a JSON object after the opening brace. -/
def parseJsonObj : Nat → Str → Option (Json × Str)
  | 0, _ => none
  | fuel + 1, s =>
    let s := jsonWs s
    match s with
    | c :: t =>
      if c = Char.ofNat 125 then some (Json.obj [], t)
      else parseJsonMembers fuel [] (c :: t)
    | [] => none
termination_by structural fuel => fuel

/-- Parse the members of a JSON object (key/value pairs). -/
def parseJsonMembers : Nat → List (Str × Json) → Str → Option (Json × Str)
  | 0, _, _ => none
  | fuel + 1, acc, s =>
    let s := jsonWs s
    match s with
    | '"' :: t =>
      match parseJsonStr fuel t with
      | some (key, r1) =>
        (match jsonWs r1 with
         | ':' :: r2 =>
           match parseJsonVal fuel r2 with
           | some (v, r3) =>
             let acc' := dictInsert acc key v
             (match jsonWs r3 with
              | ',' :: r4 => parseJsonMembers fuel acc' r4
              | c :: r4 =>
                if c = Char.ofNat 125 then some (Json.obj acc', r4) else none
              | [] => none)
           | none => none
         | _ => none)
      | none => none
    | _ => none
termination_by structural fuel => fuel

/-- Parse a JSON array after the opening bracket. -/
def parseJsonArr : Nat → Str → Option (Json × Str)
  | 0, _ => none
  | fuel + 1, s =>
    let s := jsonWs s
    match s with
    | ']' :: t => some (Json.arr [], t)
    | _ => parseJsonElems fuel [] s
termination_by structural fuel => fuel

/-- Parse the elements of a JSON array. -/
def parseJsonElems : Nat → List Json → Str → Option (Json × Str)
  | 0, _, _ => none
  | fuel + 1, acc, s =>
    match parseJsonVal fuel s with
    | some (v, r1) =>
      (match jsonWs r1 with
       | ',' :: r2 => parseJsonElems fuel (acc ++ [v]) r2
       | ']' :: r2 => some (Json.arr (acc ++ [v]), r2)
       | _ => none)
    | none => none
termination_by structural fuel => fuel

end

/-- Python `json.loads` on a whole text: one value, optionally surrounded by
whitespace; `none` models `json.JSONDecodeError`. -/
def jsonLoads (s : Str) : Option Json :=
  match parseJsonVal (2 * s.length + 8) s with
  | some (v, rest) => if (jsonWs rest).isEmpty then some v else none
  | none => none

/-! ## Tool-call parser (`ReportAgent._parse_tool_calls`)

Two grammars are applied to the same text in fixed order and their matches
concatenated: first every `<tool_call>{...}</tool_call>` block whose body
loads as JSON, then every `[TOOL_CALL] name(key="value", ...)` call.  The
scanners below reproduce `re.finditer` semantics for the two patterns
`<tool_call>\s*(\x7b.*?\x7d)\s*</tool_call>` (DOTALL) and
`\[TOOL_CALL\]\s*(\w+)\s*\((.*?)\)` (DOTALL). -/

/-- Opening brace character (written numerically). -/
def lbrace : Char := Char.ofNat 123

/-- Closing brace character (written numerically). -/
def rbrace : Char := Char.ofNat 125

/-- The grammar-A opening delimiter. -/
def xmlOpen : Str := "<tool_call>".data

/-- The grammar-A closing delimiter. -/
def xmlClose : Str := "</tool_call>".data

/-- The grammar-B marker. -/
def funcLit : Str := "[TOOL_CALL]".data

/-- Find the lazy end of a grammar-A body: the first closing brace that is
followed by optional whitespace and the closing delimiter.  Returns the body
characters up to and including that brace, and the text after the closing
delimiter. -/
def xmlBodyEnd : Nat → Str → Option (Str × Str)
  | 0, _ => none
  | _ + 1, [] => none
  | fuel + 1, c :: t =>
    if c = rbrace then
      let t' := t.dropWhile pyIsSpace
      if xmlClose.isPrefixOf t' then some ([c], t'.drop xmlClose.length)
      else
        match xmlBodyEnd fuel t with
        | some (body, r) => some (c :: body, r)
        | none => none
    else
      match xmlBodyEnd fuel t with
      | some (body, r) => some (c :: body, r)
      | none => none

/-- Attempt a grammar-A match directly after the opening delimiter:
`\s*` then a brace-delimited lazy body then `\s*</tool_call>`. -/
def attemptXml (s : Str) : Option (Str × Str) :=
  let s1 := s.dropWhile pyIsSpace
  match s1 with
  | c :: t =>
    if c = lbrace then
      match xmlBodyEnd (t.length + 1) t with
      | some (body, r) => some (lbrace :: body, r)
      | none => none
    else none
  | [] => none

/-- Scan for all grammar-A blocks, left to right and non-overlapping,
returning the captured JSON body texts. -/
def xmlScan : Nat → Str → List Str
  | 0, _ => []
  | _ + 1, [] => []
  | fuel + 1, c :: t =>
    if xmlOpen.isPrefixOf (c :: t) then
      match attemptXml ((c :: t).drop xmlOpen.length) with
      | some (body, rest) => body :: xmlScan fuel rest
      | none => xmlScan fuel t
    else xmlScan fuel t

/-- The grammar-A body texts found in a response. -/
def xmlBodies (s : Str) : List Str := xmlScan (s.length + 1) s

/-- Quote characters accepted by the grammar-B parameter pattern. -/
def isQuote (c : Char) : Bool := c = '"' || c = '\''

/-- Scan a grammar-B parameter text for `(\w+)\s*=\s*["\x27]([^"\x27]*)["\x27]`
matches, left to right and non-overlapping. -/
def paramScan : Nat → Str → List (Str × Str)
  | 0, _ => []
  | _ + 1, [] => []
  | fuel + 1, c :: t =>
    let key := (c :: t).takeWhile pyIsWord
    if key.isEmpty then paramScan fuel t
    else
      match ((c :: t).drop key.length).dropWhile pyIsSpace with
      | '=' :: r2 =>
        (match r2.dropWhile pyIsSpace with
         | q :: r4 =>
           if isQuote q then
             let v := r4.takeWhile (fun x => !isQuote x)
             (match r4.drop v.length with
              | _ :: rest => (key, v) :: paramScan fuel rest
              | [] => paramScan fuel t)
           else paramScan fuel t
         | [] => paramScan fuel t)
      | _ => paramScan fuel t

/-- Attempt a grammar-B match directly after the `[TOOL_CALL]` marker:
`\s*` then a name, `\s*`, and a parenthesised lazy parameter text. -/
def attemptFunc (s : Str) : Option ((Str × List (Str × Str)) × Str) :=
  let s1 := s.dropWhile pyIsSpace
  let name := s1.takeWhile pyIsWord
  if name.isEmpty then none
  else
    match (s1.drop name.length).dropWhile pyIsSpace with
    | '(' :: t =>
      let ps := t.takeWhile (fun c => c ≠ ')')
      if ps.length = t.length then none
      else some ((name, paramScan (ps.length + 1) ps), t.drop (ps.length + 1))
    | _ => none

/-- Scan for all grammar-B calls, left to right and non-overlapping. -/
def funcScan : Nat → Str → List (Str × List (Str × Str))
  | 0, _ => []
  | _ + 1, [] => []
  | fuel + 1, c :: t =>
    if funcLit.isPrefixOf (c :: t) then
      match attemptFunc ((c :: t).drop funcLit.length) with
      | some (m, rest) => m :: funcScan fuel rest
      | none => funcScan fuel t
    else funcScan fuel t

/-- The grammar-B matches found in a response. -/
def funcMatches (s : Str) : List (Str × List (Str × Str)) := funcScan (s.length + 1) s

/-- Build the dict `{"name": tool_name, "parameters": params}` appended for a
grammar-B match; the parameter dict is built left to right with Python
assignment semantics. -/
def toolCallOfFunc (m : Str × List (Str × Str)) : Json :=
  Json.obj
    [("name".data, Json.str m.1),
     ("parameters".data,
      Json.obj (m.2.foldl (fun acc kv => dictInsert acc kv.1 (Json.str kv.2)) []))]

/-- Embedding of `ReportAgent._parse_tool_calls`: all grammar-A bodies that
load as JSON (malformed ones skipped silently), followed by all grammar-B
calls, each group in text order. -/
def parse_tool_calls (response : Str) : List Json :=
  ((xmlBodies response).filterMap jsonLoads) ++ ((funcMatches response).map toolCallOfFunc)

/-! ## Residual tool-call stripping used by `ReportAgent.chat` -/

/-- Drop through the first occurrence of `pat`, returning the remainder,
or `none` when `pat` does not occur. -/
def dropThroughFirst (pat : Str) : Str → Option Str
  | [] => none
  | c :: t =>
    if pat.isPrefixOf (c :: t) then some ((c :: t).drop pat.length)
    else dropThroughFirst pat t

/-- Embedding of `re.sub(r'<tool_call>.*?</tool_call>', '', s, flags=DOTALL)`. -/
def stripXmlCalls : Nat → Str → Str
  | 0, s => s
  | _ + 1, [] => []
  | fuel + 1, c :: t =>
    if xmlOpen.isPrefixOf (c :: t) then
      match dropThroughFirst xmlClose ((c :: t).drop xmlOpen.length) with
      | some rest => stripXmlCalls fuel rest
      | none => c :: stripXmlCalls fuel t
    else c :: stripXmlCalls fuel t

/-- Remainder after the first `)` reached without crossing a newline
(the lazy `.*?\)` without DOTALL). -/
def dropToParenNoNl : Str → Option Str
  | [] => none
  | c :: t => if c = ')' then some t else if c = '\n' then none else dropToParenNoNl t

/-- Embedding of `re.sub(r'\[TOOL_CALL\].*?\)', '', s)` (no DOTALL). -/
def stripFuncCalls : Nat → Str → Str
  | 0, s => s
  | _ + 1, [] => []
  | fuel + 1, c :: t =>
    if funcLit.isPrefixOf (c :: t) then
      match dropToParenNoNl ((c :: t).drop funcLit.length) with
      | some rest => stripFuncCalls fuel rest
      | none => c :: stripFuncCalls fuel t
    else c :: stripFuncCalls fuel t

/-- The response cleaning performed on the call-free path of
`ReportAgent.chat`: strip grammar-A blocks, then grammar-B fragments, then
surrounding whitespace. -/
def cleanChatResponse (s : Str) : Str :=
  pyStrip (stripFuncCalls (s.length + 1) (stripXmlCalls (s.length + 1) s))

/-! ## Report data model (`report_agent.py` dataclasses) -/

/-- Embedding of the `ReportStatus` enum. -/
inductive ReportStatus where
  | pending
  | planning
  | generating
  | completed
  | failed
  deriving DecidableEq, Repr

/-- Embedding of the `ReportSection` dataclass (recursive, like the source;
the planner only ever builds two levels). -/
inductive ReportSection where
  | mk (title : Str) (content : Str) (subsections : List ReportSection)

/-- Section title. -/
def ReportSection.title : ReportSection → Str
  | .mk t _ _ => t

/-- Section content (empty until generated). -/
def ReportSection.content : ReportSection → Str
  | .mk _ c _ => c

/-- Section subsections. -/
def ReportSection.subsections : ReportSection → List ReportSection
  | .mk _ _ s => s

/-- Replace the content of a section (the `section.content = ...` mutation). -/
def ReportSection.withContent : ReportSection → Str → ReportSection
  | .mk t _ s, c => .mk t c s

/-- Embedding of the `ReportOutline` dataclass. -/
structure ReportOutline where
  title : Str
  summary : Str
  sections : List ReportSection

/-- Embedding of the `Report` dataclass. -/
structure Report where
  report_id : Str
  simulation_id : Str
  graph_id : Str
  simulation_requirement : Str
  status : ReportStatus
  outline : Option ReportOutline
  markdown_content : Str
  created_at : Str
  completed_at : Str
  error : Option Str

/-! ## Progress events

One event per observable progress report: `rec` for a write of
`progress.json` by `ReportManager.update_progress` (message and section
labels elided — only status and percent are claimed about), `cb` for an
invocation of the caller's progress callback. -/

/-- One observable progress report. -/
inductive PEvent where
  | record (status : Str) (percent : Int)
  | cb (stage : Str) (percent : Int)
  deriving DecidableEq, Repr

/-- Append a callback event when a callback is installed. -/
def emitCb (cbOn : Bool) (evs : List PEvent) (stage : Str) (p : Int) : List PEvent :=
  if cbOn then evs ++ [PEvent.cb stage p] else evs

/-- The percent of a record event, if it is one. -/
def recPercent : PEvent → Option Int
  | .record _ p => some p
  | .cb _ _ => none

/-- The persisted-progress percent trace of an event list. -/
def recPercents (evs : List PEvent) : List Int := evs.filterMap recPercent

/-! ## Outline planning (`ReportAgent.plan_outline`)

The structured model response is embedded as an optional-field record (a
missing key is `none`, matching the `.get(key, default)` reads); a
transport or parse failure of `llm.chat_json` is the `Except` error of the
`chatJson` oracle.  `ctxFetch` is the `get_simulation_context` retrieval
call, which happens before the `try` block and therefore propagates. -/

/-- A subsection entry of the planner's structured response. -/
structure PlanSubData where
  title : Option Str

/-- A section entry of the planner's structured response. -/
structure PlanSectionData where
  title : Option Str
  subsections : Option (List PlanSubData)

/-- The planner's structured response object. -/
structure PlanResponse where
  title : Option Str
  summary : Option Str
  sections : Option (List PlanSectionData)

/-- The collaborator outcomes consumed by one `plan_outline` call. -/
structure PlanEnv where
  ctxFetch : Except Str Unit
  chatJson : Except Str PlanResponse

/-- Parsing of the structured response into an outline (lines 406-425 of
`report_agent.py`): every returned section and subsection is kept, contents
are initialised empty, and missing fields fall back to their defaults. -/
def planOutlineFromResponse (r : PlanResponse) : ReportOutline :=
  { title := r.title.getD ("模拟分析报告".data),
    summary := r.summary.getD [],
    sections := (r.sections.getD []).map (fun sd =>
      ReportSection.mk (sd.title.getD []) []
        ((sd.subsections.getD []).map (fun sub =>
          ReportSection.mk (sub.title.getD []) [] []))) }

/-- The fixed five-section fallback outline returned when the planner's
language-model call raises (lines 436-446). -/
def defaultOutline : ReportOutline :=
  { title := "模拟分析报告".data,
    summary := "基于模拟结果的分析报告".data,
    sections :=
      [ReportSection.mk ("执行摘要".data) [] [],
       ReportSection.mk ("模拟背景与场景设定".data) [] [],
       ReportSection.mk ("关键发现与趋势分析".data) [] [],
       ReportSection.mk ("舆情走向与情绪演化".data) [] [],
       ReportSection.mk ("总结与建议".data) [] []] }

/-- Embedding of `ReportAgent.plan_outline`.  Progress callbacks fire at 0
and 30 before the model call and at 80 and 100 after a successful one; the
context fetch precedes the `try` block, so its failure propagates (carrying
the events already emitted), while any failure of the model call is caught
and answered with the fallback outline. -/
def plan_outline (cbOn : Bool) (env : PlanEnv) :
    Except (Str × List PEvent) (ReportOutline × List PEvent) :=
  let ev0 := emitCb cbOn [] ("planning".data) 0
  match env.ctxFetch with
  | .error e => .error (e, ev0)
  | .ok () =>
    let ev1 := emitCb cbOn ev0 ("planning".data) 30
    match env.chatJson with
    | .error _ => .ok (defaultOutline, ev1)
    | .ok r =>
      let ev2 := emitCb cbOn ev1 ("planning".data) 80
      let ev3 := emitCb cbOn ev2 ("planning".data) 100
      .ok (planOutlineFromResponse r, ev3)

/-! ## Checkpoint store (`ReportManager`)

One report folder is an association list from file name to file content;
`storeWrite` is the atomic whole-file write used everywhere.  The metadata
files (`meta.json`, `outline.json`, `progress.json`) hold serialised JSON
that no claim reads back; their writes are modelled as persistence
operations in the orchestrator and their names never pass the
`section_*.md` filter below. -/

/-- Lexicographic strict comparison of texts by code point (Python `<` on
`str`). -/
def lexLtB : Str → Str → Bool
  | [], [] => false
  | [], _ :: _ => true
  | _ :: _, [] => false
  | a :: as, b :: bs => if a < b then true else if b < a then false else lexLtB as bs

/-- Lexicographic non-strict comparison (the order used by Python
`sorted`). -/
def lexLeB (a b : Str) : Bool := !(lexLtB b a)

/-- The sorting relation of Python `sorted` on file names. -/
def lexLeP (a b : Str) : Prop := lexLeB a b = true

instance : DecidableRel lexLeP := fun a b => by
  unfold lexLeP; infer_instance

/-- A report folder: file name ↦ file content. -/
abbrev FileStore := List (Str × Str)

/-- Write (create or atomically replace) one file. -/
def storeWrite (st : FileStore) (name content : Str) : FileStore :=
  if st.any (fun p => p.1 == name) then
    st.map (fun p => if p.1 == name then (p.1, content) else p)
  else st ++ [(name, content)]

/-- The folder listing (`os.listdir`, order unspecified: the reading code
always sorts). -/
def storeNames (st : FileStore) : List Str := st.map Prod.fst

/-- Read one file. -/
def storeRead (st : FileStore) (name : Str) : Option Str :=
  (st.find? (fun p => p.1 == name)).map Prod.snd

/-- File name written by `ReportManager.save_section`. -/
def sectionFileName (sectionIndex : Nat) (parent : Option Nat) : Str :=
  match parent with
  | some p => "section_".data ++ pad2 p ++ "_".data ++ pad2 sectionIndex ++ ".md".data
  | none => "section_".data ++ pad2 sectionIndex ++ ".md".data

/-- Markdown content written by `ReportManager.save_section`. -/
def sectionMarkdown (level : Str) (sec : ReportSection) : Str :=
  level ++ " ".data ++ sec.title ++ "\n\n".data ++
    (if sec.content.isEmpty then [] else sec.content ++ "\n\n".data)

/-- Embedding of `ReportManager.save_section`. -/
def save_section (st : FileStore) (sectionIndex : Nat) (sec : ReportSection)
    (isSubsection : Bool) (parentIndex : Option Nat) : FileStore :=
  match isSubsection, parentIndex with
  | true, some p =>
    storeWrite st (sectionFileName sectionIndex (some p)) (sectionMarkdown ("###".data) sec)
  | _, _ =>
    storeWrite st (sectionFileName sectionIndex none) (sectionMarkdown ("##".data) sec)

/-- One entry returned by `ReportManager.get_generated_sections`. -/
structure SectionRec where
  filename : Str
  section_index : Nat
  subsection_index : Option Nat
  content : Str
  deriving DecidableEq

/-- Index parsing performed on each section file name:
`filename.replace('.md', '').split('_')`, then `int` of parts 1 and 2.
`Except` carries the `ValueError`/`IndexError` such code can raise. -/
def parseSectionIdx (filename : Str) : Except Str (Nat × Option Nat) :=
  match splitSub ("_".data) (pyReplace (".md".data) [] filename) with
  | _ :: p1 :: rest =>
    (match parseNatDigits p1 with
     | none => .error ("ValueError".data)
     | some i =>
       match rest with
       | [] => .ok (i, none)
       | p2 :: _ =>
         match parseNatDigits p2 with
         | none => .error ("ValueError".data)
         | some j => .ok (i, some j))
  | _ => .error ("IndexError".data)

/-- The `section_*.md` file-name filter of `get_generated_sections`. -/
def isSectionFile (n : Str) : Bool :=
  ("section_".data).isPrefixOf n && (".md".data).isSuffixOf n

/-- Embedding of `ReportManager.get_generated_sections`: list the folder,
sort names lexicographically, keep `section_*.md`, read and index each. -/
def get_generated_sections (st : FileStore) : Except Str (List SectionRec) :=
  let sortedNames := List.insertionSort lexLeP (storeNames st)
  (sortedNames.filter isSectionFile).mapM (fun n => do
    let (i, j) ← parseSectionIdx n
    pure { filename := n, section_index := i, subsection_index := j,
           content := (storeRead st n).getD [] })

/-- The fixed report header: title, summary quote, separator. -/
def reportHeader (outline : ReportOutline) : Str :=
  "# ".data ++ outline.title ++ "\n\n".data ++
  "> ".data ++ outline.summary ++ "\n\n".data ++
  "---\n\n".data

/-- Embedding of `ReportManager.assemble_full_report`: concatenate the
header with every persisted section file in sorted-name order, write the
result to `full_report.md` and return it. -/
def assemble_full_report (st : FileStore) (outline : ReportOutline) :
    Except Str (Str × FileStore) := do
  let secs ← get_generated_sections st
  let md := reportHeader outline ++ (secs.map SectionRec.content).flatten
  pure (md, storeWrite st ("full_report.md".data) md)

/-! ## Conversation messages and Python value display -/

/-- One chat message. -/
structure Msg where
  role : Str
  content : Str
  deriving DecidableEq

mutual

/-- Python `repr` of a JSON-loaded value (used inside container displays). -/
def jsonRepr : Json → Str
  | .str s => Char.ofNat 39 :: (s ++ [Char.ofNat 39])
  | .num l => l
  | .bool true => "True".data
  | .bool false => "False".data
  | .null => "None".data
  | .arr xs => '[' :: (jsonReprList xs ++ [']'])
  | .obj kvs => lbrace :: (jsonReprKVs kvs ++ [rbrace])

/-- Comma-separated `repr` of list elements. -/
def jsonReprList : List Json → Str
  | [] => []
  | [x] => jsonRepr x
  | x :: y :: xs => jsonRepr x ++ ", ".data ++ jsonReprList (y :: xs)

/-- Comma-separated `repr` of dict entries. -/
def jsonReprKVs : List (Str × Json) → Str
  | [] => []
  | [(k, v)] => Char.ofNat 39 :: (k ++ (Char.ofNat 39 :: ": ".data) ++ jsonRepr v)
  | (k, v) :: p :: xs =>
    Char.ofNat 39 :: (k ++ (Char.ofNat 39 :: ": ".data) ++ jsonRepr v) ++
      ", ".data ++ jsonReprKVs (p :: xs)

end

/-- Python `str()` of a JSON-loaded value, as interpolated into f-strings. -/
def jsonDisplay : Json → Str
  | .str s => s
  | j => jsonRepr j

/-- Python `d[k]` on a JSON-loaded value; the `Except` error is the
`KeyError`/`TypeError` raised on a missing key or a non-dict. -/
def pyGetItem (j : Json) (k : Str) : Except Str Json :=
  match j with
  | .obj kvs =>
    (match kvs.find? (fun p => p.1 == k) with
     | some p => .ok p.2
     | none => .error ("KeyError: ".data ++ k))
  | _ => .error ("TypeError: value is not a dict".data)

/-- Python `d.get(k, default)` on a JSON-loaded value. -/
def pyDictGet (j : Json) (k : Str) (d : Json) : Except Str Json :=
  match j with
  | .obj kvs => .ok (((kvs.find? (fun p => p.1 == k)).map Prod.snd).getD d)
  | _ => .error ("AttributeError: no attribute get".data)

/-! ## Section generator (`ReportAgent._generate_section_react`)

The language model is the oracle stream `chat` (one entry per `llm.chat`
call) and the tool dispatcher is the oracle stream `tool` (one entry per
`_execute_tool` call; `_execute_tool` catches every collaborator exception
and returns text, so it is total by contract).  The per-section loop runs
`MAX_TOOL_CALLS_PER_SECTION + 2` rounds, then one forced final call. -/

/-- The collaborator oracles consumed by the generation and chat loops. -/
structure LLMEnv where
  chat : Nat → Str
  tool : Nat → Str

/-- `ReportAgent.MAX_TOOL_CALLS_PER_SECTION`. -/
def MAX_TOOL_CALLS_PER_SECTION : Nat := 5

/-- The round bound `MAX_TOOL_CALLS_PER_SECTION + 2` of the ReACT loop. -/
def reactMaxIterations : Nat := MAX_TOOL_CALLS_PER_SECTION + 2

/-- The final-answer marker. -/
def finalMarker : Str := "Final Answer:".data

/-- Constructor arguments of a `ReportAgent` instance. -/
structure AgentCfg where
  graph_id : Str
  simulation_id : Str
  simulation_requirement : Str

/-- The fixed tool registry of `ReportAgent._define_tools`
(name, description, parameter descriptions, in insertion order). -/
def reportAgentTools : List (Str × Str × List (Str × Str)) :=
  [("search_graph".data,
    "在知识图谱中搜索相关信息。输入搜索查询，返回与查询相关的事实和关系。".data,
    [("query".data, "搜索查询字符串".data),
     ("limit".data, "返回结果数量（可选，默认10）".data)]),
   ("get_graph_statistics".data,
    "获取知识图谱的统计信息，包括节点数量、边数量、实体类型分布等。".data,
    []),
   ("get_entity_summary".data,
    "获取指定实体的详细信息和关系摘要。".data,
    [("entity_name".data, "实体名称".data)]),
   ("get_simulation_context".data,
    "获取与模拟需求相关的上下文信息，包括相关事实、实体列表等。".data,
    [("query".data, "额外的查询条件（可选）".data)]),
   ("get_entities_by_type".data,
    "按类型获取实体列表，如获取所有Student类型或PublicFigure类型的实体。".data,
    [("entity_type".data, "实体类型名称".data)])]

/-- Embedding of `ReportAgent._get_tools_description`. -/
def get_tools_description : Str :=
  List.intercalate ("\n".data)
    (("可用工具：".data) ::
      (reportAgentTools.flatMap (fun t =>
        let paramsDesc :=
          List.intercalate (", ".data) (t.2.2.map (fun p => p.1 ++ ": ".data ++ p.2))
        ("- ".data ++ t.1 ++ ": ".data ++ t.2.1) ::
          (if paramsDesc.isEmpty then [] else [("  参数: ".data ++ paramsDesc)]))))

/-- The rendered system prompt of `_generate_section_react`. -/
def reactSystemPrompt (cfg : AgentCfg) (outline : ReportOutline) (sec : ReportSection) : Str :=
  "你是一个专业的舆情分析报告撰写专家，正在撰写报告的一个章节。\n\n报告标题: ".data ++
  outline.title ++ "\n报告摘要: ".data ++ outline.summary ++
  "\n模拟需求: ".data ++ cfg.simulation_requirement ++
  "\n\n当前要撰写的章节: ".data ++ sec.title ++
  "\n\n你可以使用以下工具来获取信息，每次最多调用".data ++
  natDigits MAX_TOOL_CALLS_PER_SECTION ++ "次：\n\n".data ++
  get_tools_description ++
  "\n\n请按照以下ReACT格式进行思考和行动：\n\nThought: [分析当前需要什么信息来撰写这个章节]\nAction: [如果需要信息，调用工具]\n<tool_call>\n\x7b\"name\": \"工具名称\", \"parameters\": \x7b\"参数名\": \"参数值\"\x7d\x7d\n</tool_call>\n\n当收集到足够信息后，输出：\nFinal Answer:\n[章节的完整Markdown内容]\n\n注意：\n1. 内容要专业、客观、有深度\n2. 引用具体的数据和事实\n3. 保持与其他章节的逻辑连贯性\n4. 使用适当的Markdown格式（列表、强调等）\n5. 不要重复前面章节已经详细描述的内容".data

/-- The rendered user prompt of `_generate_section_react` (the narrative
context excerpt is capped at 2000 characters). -/
def reactUserPrompt (previous : List Str) (sec : ReportSection) : Str :=
  let previousContent :=
    if previous.isEmpty then "（这是第一个章节）".data
    else List.intercalate ("\n\n".data) previous
  "已完成的章节内容：\n".data ++ previousContent.take 2000 ++
  "\n\n现在请撰写章节: ".data ++ sec.title ++
  "\n\n首先思考需要什么信息，然后调用工具获取，最后生成内容。".data

/-- Mutable state of one `_generate_section_react` invocation, together with
the global oracle cursors and the progress-event trace. -/
structure RSt where
  msgs : List Msg
  count : Nat
  executed : List Json
  chatIdx : Nat
  toolIdx : Nat
  events : List PEvent

/-- One line of the observation text for one executed tool call. -/
def toolResultLine (nm : Json) (result : Str) : Str :=
  "工具 ".data ++ jsonDisplay nm ++ " 返回:\n".data ++ result

/-- The observation message appended after a round that parsed tool calls. -/
def observationMsg (results : List Str) : Str :=
  "Observation:\n".data ++ List.intercalate ("\n\n".data) results ++
  "\n\n请继续思考或输出 Final Answer:".data

/-- The tool-execution loop of one round (lines 563-570): calls run in parse
order, each checked against the per-section budget first (`break` once the
budget is reached); `call["name"]` on a malformed call raises. -/
def execToolCalls (env : LLMEnv) : List Json → RSt → List Str →
    Except (Str × RSt) (RSt × List Str)
  | [], st, results => .ok (st, results)
  | call :: rest, st, results =>
    if st.count ≥ MAX_TOOL_CALLS_PER_SECTION then .ok (st, results)
    else
      match pyGetItem call ("name".data) with
      | .error e => .error (e, st)
      | .ok nm =>
        match pyDictGet call ("parameters".data) (Json.obj []) with
        | .error e => .error (e, st)
        | .ok _ =>
          let result := env.tool st.toolIdx
          execToolCalls env rest
            { st with count := st.count + 1, toolIdx := st.toolIdx + 1,
                      executed := st.executed ++ [call] }
            (results ++ [toolResultLine nm result])

/-- Progress emission at the top of one round:
`percent = int((iteration / max_iterations) * 100)`, mapped through the
caller-supplied transform when a callback is installed. -/
def reactEmit (cbT : Option (Int → Int)) (iter : Nat) (st : RSt) : RSt :=
  match cbT with
  | none => st
  | some f =>
    { st with events := st.events ++
        [PEvent.cb ("generating".data) (f ((100 * iter / reactMaxIterations : Nat) : Int))] }

/-- One round of the ReACT loop: emit progress, call the model, return on a
final marker, otherwise parse and execute calls (or demand finalization when
none parsed) and append the observation. -/
def reactRound (env : LLMEnv) (cbT : Option (Int → Int)) (iter : Nat) (st : RSt) :
    Except (Str × RSt) (Sum (Str × RSt) RSt) :=
  let st := reactEmit cbT iter st
  let response := env.chat st.chatIdx
  let st := { st with chatIdx := st.chatIdx + 1 }
  if containsSub finalMarker response then
    .ok (.inl (pyStrip (afterLastSub finalMarker response), st))
  else
    let calls := parse_tool_calls response
    if calls.isEmpty then
      .ok (.inr { st with msgs := st.msgs ++
        [Msg.mk ("assistant".data) response,
         Msg.mk ("user".data) ("请基于已有信息，输出 Final Answer: 并生成章节内容。".data)] })
    else
      match execToolCalls env calls st [] with
      | .error es => .error es
      | .ok (st', results) =>
        .ok (.inr { st' with msgs := st'.msgs ++
          [Msg.mk ("assistant".data) response, Msg.mk ("user".data) (observationMsg results)] })

/-- The bounded round loop followed by the forced finalization call
(lines 579-595); `fuel` counts the remaining rounds. -/
def reactLoop (env : LLMEnv) (cbT : Option (Int → Int)) :
    Nat → RSt → Except (Str × RSt) (Str × RSt)
  | 0, st =>
    let st := { st with msgs := st.msgs ++
      [Msg.mk ("user".data) ("已达到工具调用限制，请直接输出 Final Answer: 并生成章节内容。".data)] }
    let response := env.chat st.chatIdx
    let st := { st with chatIdx := st.chatIdx + 1 }
    if containsSub finalMarker response then
      .ok (pyStrip (afterLastSub finalMarker response), st)
    else
      .ok (response, st)
  | fuel + 1, st =>
    match reactRound env cbT (reactMaxIterations - (fuel + 1)) st with
    | .error e => .error e
    | .ok (.inl r) => .ok r
    | .ok (.inr st') => reactLoop env cbT fuel st'

/-- Embedding of `ReportAgent._generate_section_react`: build the two
prompts, then run the bounded think/act/observe loop from a fresh budget,
starting at the given oracle cursors. -/
def generate_section_react (cfg : AgentCfg) (env : LLMEnv) (cbT : Option (Int → Int))
    (sec : ReportSection) (outline : ReportOutline) (previous : List Str)
    (chatIdx0 toolIdx0 : Nat) (events0 : List PEvent) :
    Except (Str × RSt) (Str × RSt) :=
  reactLoop env cbT reactMaxIterations
    { msgs := [Msg.mk ("system".data) (reactSystemPrompt cfg outline sec),
               Msg.mk ("user".data) (reactUserPrompt previous sec)],
      count := 0, executed := [], chatIdx := chatIdx0, toolIdx := toolIdx0,
      events := events0 }

/-! ## Conversational agent (`ReportAgent.chat`)

Same oracles as the section generator, independent bound of 3 rounds, no
budget on tool executions within a round, no persistence.  The `sources`
field of the returned dict is always the empty list and is elided. -/

/-- The result dict of `ReportAgent.chat`. -/
structure ChatResult where
  response : Str
  tool_calls : List Json

/-- Mutable state of one `chat` invocation. -/
structure ChatSt where
  msgs : List Msg
  made : List Json
  chatIdx : Nat
  toolIdx : Nat

/-- The rendered system prompt of `chat`. -/
def chatSystemPrompt (cfg : AgentCfg) : Str :=
  "你是一个专业的舆情分析助手，负责回答关于模拟分析报告的问题。\n\n模拟需求: ".data ++
  cfg.simulation_requirement ++ "\n图谱ID: ".data ++ cfg.graph_id ++
  "\n\n你可以使用以下工具来获取信息：\n\n".data ++ get_tools_description ++
  "\n\n工具调用格式：\n<tool_call>\n\x7b\"name\": \"工具名称\", \"parameters\": \x7b\"参数名\": \"参数值\"\x7d\x7d\n</tool_call>\n\n回答要求：\n1. 基于事实和数据回答\n2. 引用具体信息来源\n3. 如果不确定，说明信息限制\n4. 保持专业和客观".data

/-- The observation message of one chat round (tool results capped at 1000
characters each). -/
def chatObservation (results : List (Json × Str)) : Str :=
  "工具调用结果:\n".data ++
  List.intercalate ("\n\n".data)
    (results.map (fun r => '[' :: (jsonDisplay r.1 ++ "]: ".data ++ r.2))) ++
  "\n\n请基于以上信息回答问题。".data

/-- The tool-execution loop of one chat round: every parsed call executes
(no budget), results truncated to 1000 characters; `call["name"]` on a
malformed call raises out of `chat`. -/
def chatExecCalls (env : LLMEnv) : List Json → Nat → Except Str (Nat × List (Json × Str))
  | [], idx => .ok (idx, [])
  | call :: rest, idx =>
    match pyGetItem call ("name".data) with
    | .error e => .error e
    | .ok nm =>
      match pyDictGet call ("parameters".data) (Json.obj []) with
      | .error e => .error e
      | .ok _ =>
        let result := (env.tool idx).take 1000
        match chatExecCalls env rest (idx + 1) with
        | .error e => .error e
        | .ok (idx', rs) => .ok (idx', (nm, result) :: rs)

/-- The bounded chat loop (3 rounds, then one further model call whose text
is returned verbatim together with the executed calls). -/
def chatLoop (env : LLMEnv) : Nat → ChatSt → Except Str (ChatResult × ChatSt)
  | 0, st =>
    let response := env.chat st.chatIdx
    .ok ({ response := response, tool_calls := st.made },
         { st with chatIdx := st.chatIdx + 1 })
  | fuel + 1, st =>
    let response := env.chat st.chatIdx
    let st := { st with chatIdx := st.chatIdx + 1 }
    let calls := parse_tool_calls response
    if calls.isEmpty then
      .ok ({ response := cleanChatResponse response, tool_calls := st.made }, st)
    else
      match chatExecCalls env calls st.toolIdx with
      | .error e => .error e
      | .ok (idx', results) =>
        chatLoop env fuel
          { st with toolIdx := idx', made := st.made ++ calls,
                    msgs := st.msgs ++
                      [Msg.mk ("assistant".data) response,
                       Msg.mk ("user".data) (chatObservation results)] }

/-- Embedding of `ReportAgent.chat`: system prompt, the most recent ten
history turns, the user message, then the bounded loop. -/
def chat (cfg : AgentCfg) (env : LLMEnv) (message : Str) (history : List Msg) :
    Except Str (ChatResult × ChatSt) :=
  chatLoop env 3
    { msgs := (Msg.mk ("system".data) (chatSystemPrompt cfg) ::
               history.drop (history.length - 10)) ++ [Msg.mk ("user".data) message],
      made := [], chatIdx := 0, toolIdx := 0 }

/-! ## Pipeline orchestrator (`ReportAgent.generate_report`)

`persistOk` is the outcome oracle for the successive filesystem/
`ReportManager` operations (indexed in call order; `none` succeeds, `some e`
raises); `hasCallback` states whether the caller installed a progress
callback.  `report_id` (a fresh uuid), and the two timestamps are
nondeterministic inputs passed as arguments.  Every `update_progress`
success appends a `record` event; every callback invocation that reaches an
installed caller callback appends a `cb` event. -/

/-- The collaborator outcomes consumed by one `generate_report` run. -/
structure GenEnv where
  llm : LLMEnv
  plan : PlanEnv
  persistOk : Nat → Option Str
  hasCallback : Bool

/-- Orchestrator state: oracle cursors, the progress-event trace, and the
report folder. -/
structure GenSt where
  chatIdx : Nat
  toolIdx : Nat
  persistIdx : Nat
  events : List PEvent
  store : FileStore

/-- One persistence operation: consult the oracle, then apply the effect. -/
def persistOp (env : GenEnv) (st : GenSt) (act : GenSt → GenSt) :
    Except (Str × GenSt) GenSt :=
  match env.persistOk st.persistIdx with
  | some e => .error (e, st)
  | none => .ok (act { st with persistIdx := st.persistIdx + 1 })

/-- `ReportManager.update_progress`: a persistence operation recording a
progress percent (message and section labels elided). -/
def updateProgress (env : GenEnv) (st : GenSt) (status : Str) (percent : Int) :
    Except (Str × GenSt) GenSt :=
  persistOp env st (fun s => { s with events := s.events ++ [PEvent.record status percent] })

/-- A caller progress-callback invocation (pure; no persistence). -/
def cbEmit (env : GenEnv) (st : GenSt) (stage : Str) (p : Int) : GenSt :=
  if env.hasCallback then { st with events := st.events ++ [PEvent.cb stage p] } else st

/-- Fold a section generator's cursor/event advances back into the
orchestrator state. -/
def absorb (st : GenSt) (r : RSt) : GenSt :=
  { st with chatIdx := r.chatIdx, toolIdx := r.toolIdx, events := r.events }

/-- The freshly constructed `Report` (lines 625-632). -/
def initialReport (cfg : AgentCfg) (reportId createdAt : Str) : Report :=
  { report_id := reportId, simulation_id := cfg.simulation_id,
    graph_id := cfg.graph_id,
    simulation_requirement := cfg.simulation_requirement,
    status := .pending, outline := none, markdown_content := [],
    created_at := createdAt, completed_at := [], error := none }

/-- The planner's raw callback percents pass through the orchestrator's
wrapper `prog // 5` before reaching the caller. -/
def wrapPlanEvents (evs : List PEvent) : List PEvent :=
  evs.map (fun ev =>
    match ev with
    | .cb stage p => .cb stage (p / 5)
    | x => x)

/-- The subsection loop of one top-level section (lines 729-763): progress
callback and record at `base + int((j+1)/len*5)`, generation with no
callback, immediate `save_section` tagged with the parent index.  An error
carries the subsection list as mutated so far. -/
def subsLoop (cfg : AgentCfg) (env : GenEnv) (outline : ReportOutline)
    (i n len : Nat) (base : Int) :
    List ReportSection → Nat → List ReportSection → List Str → GenSt →
    Except (Str × List ReportSection × GenSt) (List ReportSection × List Str × GenSt)
  | [], _, done, generated, st => .ok (done, generated, st)
  | sub :: rest, j, done, generated, st =>
    let pct : Int := base + ((5 * (j + 1) / len : Nat) : Int)
    let st := cbEmit env st ("generating".data) pct
    match updateProgress env st ("generating".data) pct with
    | .error (e, st') => .error (e, done ++ sub :: rest, st')
    | .ok st1 =>
      match generate_section_react cfg env.llm none sub outline generated
          st1.chatIdx st1.toolIdx st1.events with
      | .error (e, rst) => .error (e, done ++ sub :: rest, absorb st1 rst)
      | .ok (content, rst) =>
        let st2 := absorb st1 rst
        let sub' := sub.withContent content
        let generated' := generated ++
          ["### ".data ++ sub.title ++ "\n\n".data ++ content]
        match persistOp env st2
            (fun s => { s with store := save_section s.store (j + 1) sub' true (some (i + 1)) }) with
        | .error (e, st') => .error (e, done ++ sub' :: rest, st')
        | .ok st3 =>
          subsLoop cfg env outline i n len base rest (j + 1) (done ++ [sub']) generated' st3

/-- The top-level section loop (lines 678-763): record and callback at
`base = 20 + int(i/total*70)`, generation with the wrapped callback
transform `base + int(prog*0.7/total)`, immediate `save_section`, a
completion record at `base + int(70/total)`, then the subsection loop. -/
def secsLoop (cfg : AgentCfg) (env : GenEnv) (outline : ReportOutline) (n : Nat) :
    List ReportSection → Nat → List ReportSection → List Str → GenSt →
    Except (Str × List ReportSection × GenSt) (List ReportSection × List Str × GenSt)
  | [], _, done, generated, st => .ok (done, generated, st)
  | sec :: rest, i, done, generated, st =>
    let base : Int := 20 + ((70 * i / n : Nat) : Int)
    match updateProgress env st ("generating".data) base with
    | .error (e, st') => .error (e, done ++ sec :: rest, st')
    | .ok st1 =>
      let st1 := cbEmit env st1 ("generating".data) base
      let cbT : Option (Int → Int) :=
        if env.hasCallback then some (fun p => base + (7 * p) / (10 * (n : Int))) else none
      match generate_section_react cfg env.llm cbT sec outline generated
          st1.chatIdx st1.toolIdx st1.events with
      | .error (e, rst) => .error (e, done ++ sec :: rest, absorb st1 rst)
      | .ok (content, rst) =>
        let st2 := absorb st1 rst
        let sec1 := sec.withContent content
        let generated' := generated ++
          ["## ".data ++ sec.title ++ "\n\n".data ++ content]
        match persistOp env st2
            (fun s => { s with store := save_section s.store (i + 1) sec1 false none }) with
        | .error (e, st') => .error (e, done ++ sec1 :: rest, st')
        | .ok st3 =>
          match updateProgress env st3 ("generating".data) (base + ((70 / n : Nat) : Int)) with
          | .error (e, st') => .error (e, done ++ sec1 :: rest, st')
          | .ok st4 =>
            match subsLoop cfg env outline i n sec.subsections.length base
                sec.subsections 0 [] generated' st4 with
            | .error (e, subsSnap, st') =>
              .error (e, done ++ ReportSection.mk sec.title content subsSnap :: rest, st')
            | .ok (subs', generated'', st5) =>
              secsLoop cfg env outline n rest (i + 1)
                (done ++ [ReportSection.mk sec.title content subs']) generated'' st5

/-- The body of `generate_report` (the code inside its `try`): initialize,
plan, generate per section, assemble, complete.  An error carries the
exception text, the `Report` as populated at the moment of the raise, and
the state (events persisted so far). -/
def genBody (cfg : AgentCfg) (env : GenEnv) (reportId createdAt completedAt : Str) :
    Except (Str × Report × GenSt) (Report × GenSt) :=
  let r0 := initialReport cfg reportId createdAt
  let st0 : GenSt := ⟨0, 0, 0, [], []⟩
  match persistOp env st0 id with
  | .error (e, st) => .error (e, r0, st)
  | .ok st =>
  match updateProgress env st ("pending".data) 0 with
  | .error (e, st') => .error (e, r0, st')
  | .ok st =>
  match persistOp env st id with
  | .error (e, st') => .error (e, r0, st')
  | .ok st =>
  let r1 := { r0 with status := .planning }
  match updateProgress env st ("planning".data) 5 with
  | .error (e, st') => .error (e, r1, st')
  | .ok st =>
  let st := cbEmit env st ("planning".data) 0
  match plan_outline env.hasCallback env.plan with
  | .error (e, pevs) => .error (e, r1, { st with events := st.events ++ wrapPlanEvents pevs })
  | .ok (outline, pevs) =>
  let st := { st with events := st.events ++ wrapPlanEvents pevs }
  let r2 := { r1 with outline := some outline }
  match persistOp env st id with
  | .error (e, st') => .error (e, r2, st')
  | .ok st =>
  match updateProgress env st ("planning".data) 15 with
  | .error (e, st') => .error (e, r2, st')
  | .ok st =>
  match persistOp env st id with
  | .error (e, st') => .error (e, r2, st')
  | .ok st =>
  let r3 := { r2 with status := .generating }
  let n := outline.sections.length
  match secsLoop cfg env outline n outline.sections 0 [] [] st with
  | .error (e, snap, st') =>
    .error (e, { r3 with outline := some { outline with sections := snap } }, st')
  | .ok (secs', _, st) =>
  let outline' := { outline with sections := secs' }
  let r4 := { r3 with outline := some outline' }
  let st := cbEmit env st ("generating".data) 95
  match updateProgress env st ("generating".data) 95 with
  | .error (e, st') => .error (e, r4, st')
  | .ok st =>
  match assemble_full_report st.store outline' with
  | .error e => .error (e, r4, st)
  | .ok (md, store') =>
  match persistOp env st (fun s => { s with store := store' }) with
  | .error (e, st') => .error (e, r4, st')
  | .ok st =>
  let r5 := { r4 with markdown_content := md, status := .completed, completed_at := completedAt }
  match persistOp env st id with
  | .error (e, st') => .error (e, r5, st')
  | .ok st =>
  match updateProgress env st ("completed".data) 100 with
  | .error (e, st') => .error (e, r5, st')
  | .ok st =>
  .ok (r5, cbEmit env st ("completed".data) 100)

/-- Embedding of `ReportAgent.generate_report`: run the body; on any raise,
mark the report failed with the exception text and best-effort persist that
state, swallowing any further persistence failure (lines 792-807). -/
def generate_report (cfg : AgentCfg) (env : GenEnv)
    (reportId createdAt completedAt : Str) : Report × GenSt :=
  match genBody cfg env reportId createdAt completedAt with
  | .ok (r, st) => (r, st)
  | .error (e, r, st) =>
    let rf := { r with status := .failed, error := some e }
    match persistOp env st id with
    | .error (_, st') => (rf, st')
    | .ok st' =>
      match updateProgress env st' ("failed".data) (-1) with
      | .error (_, st'') => (rf, st'')
      | .ok st'' => (rf, st'')

/-! ## Local fallback search (`ZepToolsService._local_search`)

The graph reads `get_all_edges`/`get_all_nodes` are `Except` inputs (they
raise after their own bounded retries); the surrounding `try` of
`_local_search` converts such a raise into returning whatever was collected
up to that point.  `NodeInfo.attributes` is never consulted here and is
elided. -/

/-- Embedding of the `EdgeInfo` dataclass. -/
structure EdgeInfo where
  uuid : Str
  name : Str
  fact : Str
  source_node_uuid : Str
  target_node_uuid : Str
  deriving DecidableEq

/-- Embedding of the `NodeInfo` dataclass (without the unused attributes). -/
structure NodeInfo where
  uuid : Str
  name : Str
  labels : List Str
  summary : Str
  deriving DecidableEq

/-- Embedding of the `SearchResult` dataclass. -/
structure SearchResult where
  facts : List Str
  edges : List EdgeInfo
  nodes : List NodeInfo
  query : Str
  total_count : Nat
  deriving DecidableEq

/-- The keyword tokens of a query: lowercase, commas (ASCII and fullwidth)
replaced by spaces, whitespace split, tokens of length at least two. -/
def searchKeywords (query : Str) : List Str :=
  ((splitWs (pyReplace ("，".data) (" ".data)
      (pyReplace (",".data) (" ".data) (pyLower query)))).filter
    (fun w => w.length > 1))

/-- Embedding of the inner `match_score`: 100 for an exact full-query
substring match, otherwise 10 per keyword token contained in the text
(tokens counted with multiplicity), 0 for empty text. -/
def match_score (queryLower : Str) (keywords : List Str) (text : Str) : Nat :=
  if text.isEmpty then 0
  else
    let textLower := pyLower text
    if containsSub queryLower textLower then 100
    else 10 * (keywords.filter (fun k => containsSub k textLower)).length

/-- Python's stable descending sort by score (`list.sort(key=score,
reverse=True)`): insertion sort with the total preorder
`score(b) ≤ score(a)`, which keeps equal-score items in enumeration
order. -/
def sortByScoreDesc {α : Type} (l : List (Nat × α)) : List (Nat × α) :=
  List.insertionSort (fun a b : Nat × α => b.1 ≤ a.1) l

/-- The scored positive-score edges, in enumeration order. -/
def scoredEdges (queryLower : Str) (keywords : List Str) (edges : List EdgeInfo) :
    List (Nat × EdgeInfo) :=
  edges.filterMap (fun e =>
    let sc := match_score queryLower keywords e.fact + match_score queryLower keywords e.name
    if sc > 0 then some (sc, e) else none)

/-- The scored positive-score nodes, in enumeration order. -/
def scoredNodes (queryLower : Str) (keywords : List Str) (nodes : List NodeInfo) :
    List (Nat × NodeInfo) :=
  nodes.filterMap (fun nd =>
    let sc := match_score queryLower keywords nd.name + match_score queryLower keywords nd.summary
    if sc > 0 then some (sc, nd) else none)

/-- Embedding of `ZepToolsService._local_search`.  The edge block runs for
scope `edges`/`both`, the node block for `nodes`/`both`; a raising graph
read aborts the remaining blocks (caught by the surrounding `try`), keeping
the facts already collected. -/
def local_search (edgesR : Except Str (List EdgeInfo)) (nodesR : Except Str (List NodeInfo))
    (query : Str) (limit : Nat) (scope : Str) : SearchResult :=
  let queryLower := pyLower query
  let keywords := searchKeywords query
  let edgeScope := scope == "edges".data || scope == "both".data
  let nodeScope := scope == "nodes".data || scope == "both".data
  let edgePart :
      Option (List Str × List EdgeInfo) :=
    if edgeScope then
      match edgesR with
      | .error _ => none
      | .ok allEdges =>
        let top := (sortByScoreDesc (scoredEdges queryLower keywords allEdges)).take limit
        some (top.filterMap (fun p => if p.2.fact.isEmpty then none else some p.2.fact),
              top.map Prod.snd)
    else some ([], [])
  match edgePart with
  | none => { facts := [], edges := [], nodes := [], query := query, total_count := 0 }
  | some (facts1, edgesResult) =>
    let nodePart :
        Option (List Str × List NodeInfo) :=
      if nodeScope then
        match nodesR with
        | .error _ => none
        | .ok allNodes =>
          let top := (sortByScoreDesc (scoredNodes queryLower keywords allNodes)).take limit
          some (top.filterMap (fun p =>
                  if p.2.summary.isEmpty then none
                  else some ('[' :: (p.2.name ++ "]: ".data ++ p.2.summary))),
                top.map Prod.snd)
      else some ([], [])
    match nodePart with
    | none =>
      { facts := facts1, edges := edgesResult, nodes := [], query := query,
        total_count := facts1.length }
    | some (facts2, nodesResult) =>
      { facts := facts1 ++ facts2, edges := edgesResult, nodes := nodesResult,
        query := query, total_count := (facts1 ++ facts2).length }

/-! ## Graph memory updater (`ZepGraphMemoryUpdater`)

Only the queueing discipline is claimed about; the per-action natural-
language formatting feeds the text of `graph.add` and is elided.  `sent`
records every activity handed to `_send_single_activity` (each such
activity reaches `client.graph.add`, possibly with retries).  Raw
`actions.jsonl` entries are association lists of Python values. -/

/-- A raw Python value from a parsed `actions.jsonl` entry. -/
inductive PyVal where
  | pstr (s : Str)
  | pint (n : Int)
  | pnone
  | pdict (kvs : List (Str × PyVal))

/-- A raw parsed dictionary entry. -/
abbrev RawDict := List (Str × PyVal)

/-- Python `k in data`. -/
def rawHasKey (d : RawDict) (k : Str) : Bool := d.any (fun p => p.1 == k)

/-- Python `data.get(k, default)`. -/
def rawGet (d : RawDict) (k : Str) (dflt : PyVal) : PyVal :=
  ((d.find? (fun p => p.1 == k)).map Prod.snd).getD dflt

/-- String coercion of a raw value (fields annotated `str` in the
dataclass). -/
def PyVal.asStr : PyVal → Str
  | .pstr s => s
  | _ => []

/-- Integer coercion of a raw value (fields annotated `int`). -/
def PyVal.asInt : PyVal → Int
  | .pint n => n
  | _ => 0

/-- Dict coercion of a raw value. -/
def PyVal.asDict : PyVal → List (Str × PyVal)
  | .pdict kvs => kvs
  | _ => []

/-- Embedding of the `AgentActivity` dataclass (fields typed as annotated;
the formatting helpers that consume `action_args` are not claimed about). -/
structure AgentActivity where
  platform : Str
  agent_id : Int
  agent_name : Str
  action_type : Str
  action_args : List (Str × PyVal)
  round_num : Int
  timestamp : Str

/-- Observable state of one `ZepGraphMemoryUpdater`. -/
structure UpdaterSt where
  queue : List AgentActivity
  total_activities : Nat
  sent : List AgentActivity

/-- The initial updater state. -/
def updaterInit : UpdaterSt := { queue := [], total_activities := 0, sent := [] }

/-- Embedding of `ZepGraphMemoryUpdater.add_activity` (lines 203-215):
`DO_NOTHING` activities are skipped before the queue put and the counter
increment. -/
def add_activity (st : UpdaterSt) (a : AgentActivity) : UpdaterSt :=
  if a.action_type == ("DO_NOTHING".data) then st
  else { st with queue := st.queue ++ [a],
                 total_activities := st.total_activities + 1 }

/-- Embedding of `ZepGraphMemoryUpdater.add_activity_from_dict`
(lines 217-239): entries carrying an `event_type` key are skipped before any
activity is built; `now` is the `datetime.now().isoformat()` default
timestamp. -/
def add_activity_from_dict (st : UpdaterSt) (d : RawDict) (platform : Str)
    (now : Str) : UpdaterSt :=
  if rawHasKey d ("event_type".data) then st
  else
    add_activity st
      { platform := platform,
        agent_id := (rawGet d ("agent_id".data) (.pint 0)).asInt,
        agent_name := (rawGet d ("agent_name".data) (.pstr [])).asStr,
        action_type := (rawGet d ("action_type".data) (.pstr [])).asStr,
        action_args := (rawGet d ("action_args".data) (.pdict [])).asDict,
        round_num := (rawGet d ("round".data) (.pint 0)).asInt,
        timestamp := (rawGet d ("timestamp".data) (.pstr now)).asStr }

/-- One iteration of `_worker_loop` that found a queued activity: dequeue it
and hand it to `_send_single_activity`. -/
def worker_step (st : UpdaterSt) : UpdaterSt :=
  match st.queue with
  | [] => st
  | a :: rest => { st with queue := rest, sent := st.sent ++ [a] }

/-- Embedding of `_flush_remaining` (the shutdown drain): send every queued
activity in order. -/
def flush_remaining (st : UpdaterSt) : UpdaterSt :=
  { st with queue := [], sent := st.sent ++ st.queue }

/-- One observable operation on an updater. -/
inductive UpdOp where
  | add (a : AgentActivity)
  | addDict (d : RawDict) (platform : Str) (now : Str)
  | work
  | flush

/-- Apply one operation. -/
def updStep (st : UpdaterSt) : UpdOp → UpdaterSt
  | .add a => add_activity st a
  | .addDict d p now => add_activity_from_dict st d p now
  | .work => worker_step st
  | .flush => flush_remaining st

/-- Run an operation sequence from the initial state. -/
def updRun (ops : List UpdOp) : UpdaterSt :=
  ops.foldl updStep updaterInit

/-! ## Concrete instances used by witnesses and counterexamples -/

/-- A six-section planner response (first section with three subsections),
larger than the documented bounds. -/
def c1Resp : PlanResponse :=
  { title := some ("T".data), summary := some ("S".data),
    sections := some
      [{ title := some ("s1".data),
         subsections := some [{ title := some ("a".data) }, { title := some ("b".data) },
                              { title := some ("c".data) }] },
       { title := some ("s2".data), subsections := some [] },
       { title := some ("s3".data), subsections := none },
       { title := some ("s4".data), subsections := none },
       { title := some ("s5".data), subsections := none },
       { title := some ("s6".data), subsections := none }] }

/-- The planner environment returning `c1Resp`. -/
def c1Env : PlanEnv := { ctxFetch := .ok (), chatJson := .ok c1Resp }

/-- A text whose grammar-B call precedes its grammar-A block. -/
def c3Text : Str :=
  "[TOOL_CALL] alpha(x=\"1\") then <tool_call>\x7b\"name\": \"beta\", \"parameters\": \x7b\x7d\x7d</tool_call>".data

/-- The call parsed from the grammar-B match of `c3Text`. -/
def alphaCall : Json :=
  Json.obj [("name".data, Json.str ("alpha".data)),
            ("parameters".data, Json.obj [("x".data, Json.str ("1".data))])]

/-- The call parsed from the grammar-A block of `c3Text`. -/
def betaCall : Json :=
  Json.obj [("name".data, Json.str ("beta".data)),
            ("parameters".data, Json.obj [])]

/-- A text with one malformed grammar-A block and one grammar-B call. -/
def c3wText : Str :=
  "<tool_call> \x7bnot json\x7d </tool_call> and [TOOL_CALL] f(q=\"z\")".data

/-- Result-state projection of a section-generator run (success or raise). -/
def reactOutSt : Except (Str × RSt) (Str × RSt) → RSt
  | .ok (_, st) => st
  | .error (_, st) => st

/-- Result-state projection of the per-round tool-execution loop. -/
def execOutSt : Except (Str × RSt) (RSt × List Str) → RSt
  | .ok (st, _) => st
  | .error (_, st) => st

/-- Result-state projection of one ReACT round. -/
def roundOutSt : Except (Str × RSt) (Sum (Str × RSt) RSt) → RSt
  | .ok (.inl (_, st)) => st
  | .ok (.inr st) => st
  | .error (_, st) => st

/-- The budget invariant of the ReACT loop: the budget counter counts the
executed calls and never exceeds the per-section maximum. -/
def reactJ (st : RSt) : Prop :=
  st.count = st.executed.length ∧ st.count ≤ MAX_TOOL_CALLS_PER_SECTION

/-- The outcome of a ReACT round that parses calls after the budget is
exhausted: the model is still called, zero tools execute (budget, executed
list and tool cursor unchanged), and an observation with an empty result
list — still demanding a final answer — is appended to the conversation. -/
def exhaustedRoundResult (env : LLMEnv) (cbT : Option (Int → Int)) (iter : Nat) (st : RSt) :
    Except (Str × RSt) (Sum (Str × RSt) RSt) :=
  let st1 := { reactEmit cbT iter st with chatIdx := st.chatIdx + 1 }
  .ok (.inr { st1 with msgs := st1.msgs ++
    [Msg.mk ("assistant".data) (env.chat st.chatIdx),
     Msg.mk ("user".data) (observationMsg [])] })

/-- Configuration used by concrete witness runs. -/
def cfgW : AgentCfg :=
  { graph_id := "g".data, simulation_id := "s".data,
    simulation_requirement := "req".data }

/-- A one-section outline used by concrete witness runs. -/
def outlineW : ReportOutline :=
  { title := "T".data, summary := "S".data,
    sections := [ReportSection.mk ("A".data) [] []] }

/-- Oracle whose every response carries one well-formed tool call. -/
def c5wEnv : LLMEnv :=
  { chat := fun _ =>
      ("<tool_call>\x7b\"name\": \"search_graph\", \"parameters\": \x7b\x7d\x7d</tool_call>".data),
    tool := fun _ => ("r".data) }

/-- A ReACT state whose tool budget is already exhausted. -/
def c5wSt : RSt :=
  { msgs := [], count := 5,
    executed := [betaCall, betaCall, betaCall, betaCall, betaCall],
    chatIdx := 2, toolIdx := 5, events := [] }

/-- Environment whose context fetch raises while everything else succeeds
(used to witness the failure path of `generate_report`). -/
def c2Env : GenEnv :=
  { llm := { chat := fun _ => [], tool := fun _ => [] },
    plan := { ctxFetch := .error ("zep down".data),
              chatJson := .ok { title := none, summary := none, sections := none } },
    persistOk := fun _ => none, hasCallback := false }

/-- Environment for a completing run whose outline has one section with one
subsection (every model reply finalizes immediately; persistence always
succeeds; no caller callback). -/
def c4Env : GenEnv :=
  { llm := { chat := fun _ => ("Final Answer:\nok".data), tool := fun _ => [] },
    plan := { ctxFetch := .ok (),
              chatJson := .ok
                { title := some ("T".data), summary := some ("S".data),
                  sections := some
                    [{ title := some ("A".data),
                       subsections := some [{ title := some ("B".data) }] }] } },
    persistOk := fun _ => none, hasCallback := false }

/-- Environment like `c4Env` but with a subsection-free outline. -/
def c4wEnv : GenEnv :=
  { llm := { chat := fun _ => ("Final Answer:\nok".data), tool := fun _ => [] },
    plan := { ctxFetch := .ok (),
              chatJson := .ok
                { title := some ("T".data), summary := some ("S".data),
                  sections := some [{ title := some ("A".data), subsections := some [] }] } },
    persistOk := fun _ => none, hasCallback := false }

/-- The completed run of `c4wEnv` (it does complete, see the C4 witness). -/
def c4wOut : Report × GenSt :=
  (genBody cfgW c4wEnv ("rid".data) ("ca".data) ("co".data)).toOption.getD
    (initialReport cfgW ("rid".data) ("ca".data), ⟨0, 0, 0, [], []⟩)

/-- The persisted progress record percents written by the section loop for
`k` subsection-free sections starting at index `i` out of `n`:
`20 + int(i/n*70)` at section start and `+ int(70/n)` at completion. -/
def secPat (n : Nat) : Nat → Nat → List Int
  | _, 0 => []
  | i, k + 1 =>
    (20 + ((70 * i / n : Nat) : Int)) ::
    ((20 + ((70 * i / n : Nat) : Int)) + ((70 / n : Nat) : Int)) :: secPat n (i + 1) k

/-- A well-formed tool call for the chat loop: a dict carrying a name key
(executing anything else raises `KeyError`/`TypeError`). -/
def callWellFormed (c : Json) : Bool :=
  match c with
  | .obj kvs => kvs.any (fun p => p.1 == ("name".data))
  | _ => false

/-- The model response used for the first three chat rounds: one
well-formed tool call. -/
def c9ToolResp : Str :=
  "<tool_call>\x7b\"name\": \"search_graph\", \"parameters\": \x7b\x7d\x7d</tool_call>".data

/-- The fourth (bound-exhausted) model response: an answer that still
contains tool-call syntax. -/
def c9Final : Str :=
  "Done <tool_call>\x7b\"name\": \"x\", \"parameters\": \x7b\x7d\x7d</tool_call>".data

/-- Oracle producing tool calls for three rounds, then `c9Final`. -/
def c9Env : LLMEnv :=
  { chat := fun k => if k < 3 then c9ToolResp else c9Final,
    tool := fun _ => ("t".data) }

/-- The call parsed from `c9ToolResp`. -/
def c9Call : Json :=
  Json.obj [("name".data, Json.str ("search_graph".data)),
            ("parameters".data, Json.obj [])]

/-- A query with eleven keyword tokens. -/
def c8Query : Str := "aa bb cc dd ee ff gg hh ii jj kk".data

/-- An edge whose fact matches the full query exactly (score 100). -/
def c8Exact : EdgeInfo :=
  { uuid := "1".data, name := [], fact := "aa bb cc dd ee ff gg hh ii jj kk".data,
    source_node_uuid := [], target_node_uuid := [] }

/-- An edge whose fact contains all eleven keywords but not the full query
(score 110). -/
def c8Kw : EdgeInfo :=
  { uuid := "2".data, name := [], fact := "kk jj ii hh gg ff ee dd cc bb aa".data,
    source_node_uuid := [], target_node_uuid := [] }

/-- File name of a top-level section record with a two-digit index. -/
def topName (i : Nat) : Str := "section_".data ++ (pad2 i ++ ".md".data)

/-- File name of a subsection record with two-digit indices. -/
def subName (p j : Nat) : Str :=
  "section_".data ++ (pad2 p ++ ("_".data ++ (pad2 j ++ ".md".data)))

/-- A well-formed (zero-padded, two-digit) section-record file name. -/
def wfName (nm : Str) : Prop :=
  (∃ i, i < 100 ∧ nm = topName i) ∨
  (∃ p j, p < 100 ∧ j < 100 ∧ nm = subName p j)

/-- The claimed record order: ascending section index, a top-level record
before its own subsections, subsections ascending. -/
def keyLe : Nat × Option Nat → Nat × Option Nat → Bool := fun a b =>
  decide (a.1 < b.1) ||
  (decide (a.1 = b.1) &&
    (match a.2, b.2 with
     | none, _ => true
     | some _, none => false
     | some x, some y => decide (x ≤ y)))

/-- The index pair parsed from a section file name (junk default off the
well-formed domain). -/
def nameKey (nm : Str) : Nat × Option Nat :=
  (parseSectionIdx nm).toOption.getD (0, none)

/-- The record `get_generated_sections` builds for one file name. -/
def recOf (st : FileStore) (n : Str) : SectionRec :=
  { filename := n, section_index := (nameKey n).1, subsection_index := (nameKey n).2,
    content := (storeRead st n).getD [] }

/-- Concrete two-file store for the assembly claim: one subsection record
listed before its parent top-level record. -/
def c7wSt : FileStore :=
  [(("section_01_02.md".data), ("Beta\n".data)),
   (("section_01.md".data), ("Alpha\n".data))]

/-- Concrete outline for the assembly claim. -/
def c7Outline : ReportOutline :=
  { title := "R".data, summary := "Q".data, sections := [] }

/-! ## Claim theorems -/

/-- Claim C10, supporting invariant: no queued or sent activity is a
`DO_NOTHING` one, and `total_activities` counts exactly the enqueued
activities. -/
def updInv (st : UpdaterSt) : Prop :=
  (∀ a ∈ st.queue, a.action_type ≠ ("DO_NOTHING".data)) ∧
  (∀ a ∈ st.sent, a.action_type ≠ ("DO_NOTHING".data)) ∧
  st.total_activities = st.queue.length + st.sent.length

theorem add_activity_updInv {st : UpdaterSt} {a : AgentActivity} (h : updInv st) :
    updInv (add_activity st a) := by
  obtain ⟨hq, hs, ht⟩ := h
  unfold add_activity
  split
  · exact ⟨hq, hs, ht⟩
  · rename_i hne
    refine ⟨?_, hs, ?_⟩
    · intro x hx
      rcases List.mem_append.1 hx with hx | hx
      · exact hq x hx
      · rcases List.mem_singleton.1 hx with rfl
        intro hcontra
        simp [hcontra] at hne
    · simp [ht]; omega

theorem updStep_updInv {st : UpdaterSt} (op : UpdOp) (h : updInv st) :
    updInv (updStep st op) := by
  cases op with
  | add a =>
    exact add_activity_updInv h
  | addDict d p now =>
    show updInv (add_activity_from_dict st d p now)
    unfold add_activity_from_dict
    split
    · exact h
    · exact add_activity_updInv h
  | work =>
    obtain ⟨hq, hs, ht⟩ := h
    show updInv (worker_step st)
    unfold worker_step
    cases hqq : st.queue with
    | nil => exact ⟨by simp [hqq], hs, by simpa [hqq] using ht⟩
    | cons a rest =>
      refine ⟨?_, ?_, ?_⟩
      · intro x hx; exact hq x (by simp [hqq]; right; exact hx)
      · intro x hx
        rcases List.mem_append.1 hx with hx | hx
        · exact hs x hx
        · rcases List.mem_singleton.1 hx with rfl
          exact hq x (by simp [hqq])
      · simp only [hqq, List.length_cons] at ht
        simp only [List.length_append, List.length_cons, List.length_nil]
        omega
  | flush =>
    obtain ⟨hq, hs, ht⟩ := h
    show updInv (flush_remaining st)
    unfold flush_remaining
    refine ⟨by simp, ?_, ?_⟩
    · intro x hx
      rcases List.mem_append.1 hx with hx | hx
      · exact hs x hx
      · exact hq x hx
    · simp only [List.length_nil, List.length_append]
      omega

theorem updRun_aux (ops : List UpdOp) (st : UpdaterSt) (h : updInv st) :
    updInv (ops.foldl updStep st) := by
  induction ops generalizing st with
  | nil => exact h
  | cons op rest ih => exact ih _ (updStep_updInv op h)

/-- Claim C10: no `DO_NOTHING` activity is ever enqueued by `add_activity`
and no dict entry with an `event_type` key is ever converted by
`add_activity_from_dict` — both return the state unchanged — so after any
sequence of adds, worker iterations and shutdown flushes, no queued or sent
activity is a `DO_NOTHING` one and `total_activities` counts only the
actually enqueued activities. -/
theorem C10_do_nothing_never_enqueued_or_sent :
    (∀ ops : List UpdOp, updInv (updRun ops)) ∧
    (∀ (st : UpdaterSt) (a : AgentActivity),
      a.action_type = ("DO_NOTHING".data) → add_activity st a = st) ∧
    (∀ (st : UpdaterSt) (d : RawDict) (platform now : Str),
      rawHasKey d ("event_type".data) = true →
      add_activity_from_dict st d platform now = st) := by
  refine ⟨?_, ?_, ?_⟩
  · intro ops
    exact updRun_aux ops updaterInit
      ⟨by intro a ha; simp [updaterInit] at ha, by intro a ha; simp [updaterInit] at ha, rfl⟩
  · intro st a h
    unfold add_activity
    simp [h]
  · intro st d p now h
    unfold add_activity_from_dict
    simp [h]

/-- Witness for C10 at concrete inputs: a `DO_NOTHING` activity and an
`event_type` dict entry are both dropped. -/
theorem C10_witness :
    add_activity updaterInit
      { platform := "twitter".data, agent_id := 1, agent_name := "n".data,
        action_type := "DO_NOTHING".data, action_args := [], round_num := 0,
        timestamp := "t".data } = updaterInit ∧
    add_activity_from_dict updaterInit [("event_type".data, PyVal.pstr ("start".data))]
      ("twitter".data) ("t".data) = updaterInit := by
  constructor
  · exact C10_do_nothing_never_enqueued_or_sent.2.1 _ _ rfl
  · exact C10_do_nothing_never_enqueued_or_sent.2.2 _ _ _ _ (by decide)

/-- Claim C6: if the planner's language-model call raises any exception,
`plan_outline` returns (never raises) the fixed deterministic five-section
fallback outline whose titles are the localized forms of Executive Summary,
Background and Setup, Key Findings and Trends, Sentiment Evolution,
Conclusions and Recommendations, each with no subsections and empty
content. -/
theorem C6_planner_fallback (cbOn : Bool) (e : Str) :
    plan_outline cbOn { ctxFetch := .ok (), chatJson := .error e } =
      .ok (defaultOutline,
           if cbOn then [PEvent.cb ("planning".data) 0, PEvent.cb ("planning".data) 30]
           else []) ∧
    defaultOutline.sections.map ReportSection.title =
      [("执行摘要".data), ("模拟背景与场景设定".data), ("关键发现与趋势分析".data),
       ("舆情走向与情绪演化".data), ("总结与建议".data)] ∧
    defaultOutline.sections.all
      (fun s => s.subsections.isEmpty && s.content.isEmpty) = true := by
  refine ⟨?_, rfl, rfl⟩
  cases cbOn <;> rfl

/-- Claim C1, counterexample: on a model response with six sections (the
first having three subsections) `plan_outline` returns all six sections and
all three subsections — no truncation to the 1–5/0–2 bounds happens. -/
theorem C1_counterexample :
    plan_outline false c1Env = .ok (planOutlineFromResponse c1Resp, []) ∧
    (planOutlineFromResponse c1Resp).sections.length = 6 ∧
    (planOutlineFromResponse c1Resp).sections.map (fun s => s.subsections.length) =
      [3, 0, 0, 0, 0, 0] ∧
    ¬ ((planOutlineFromResponse c1Resp).sections.length ≤ 5) := by
  exact ⟨rfl, rfl, rfl, by decide⟩

/-- Claim C1, amended: `plan_outline` applies no truncation at all — on a
successful model call it keeps exactly the returned sections and
subsections, in order, with titles preserved and contents emptied; the
1–5/0–2 bounds are only requested in the prompt, and only the fallback
outline (used when the model call raises) is guaranteed to have exactly
five sections. -/
theorem C1_amended :
    ∀ (cbOn : Bool) (r : PlanResponse),
      plan_outline cbOn { ctxFetch := .ok (), chatJson := .ok r } =
        .ok (planOutlineFromResponse r,
             if cbOn then
               [PEvent.cb ("planning".data) 0, PEvent.cb ("planning".data) 30,
                PEvent.cb ("planning".data) 80, PEvent.cb ("planning".data) 100]
             else []) ∧
      (planOutlineFromResponse r).sections.length = (r.sections.getD []).length ∧
      (planOutlineFromResponse r).sections.map ReportSection.title =
        (r.sections.getD []).map (fun sd => sd.title.getD []) ∧
      (planOutlineFromResponse r).sections.map (fun s => s.subsections.length) =
        (r.sections.getD []).map (fun sd => (sd.subsections.getD []).length) ∧
      defaultOutline.sections.length = 5 := by
  intro cbOn r
  refine ⟨by cases cbOn <;> rfl, ?_, ?_, ?_, rfl⟩
  · simp [planOutlineFromResponse]
  · simp [planOutlineFromResponse, List.map_map]
    intro a _
    rfl
  · simp [planOutlineFromResponse, List.map_map]
    intro a _
    simp [ReportSection.subsections]

/-- Claim C3, counterexample: on a text whose grammar-B call (`[TOOL_CALL]`
at position 0) precedes its grammar-A block, the parser returns the
grammar-A call first — the output is grouped by grammar, not in first-seen
text order. -/
theorem C3_counterexample :
    parse_tool_calls c3Text = [betaCall, alphaCall] ∧
    funcLit.isPrefixOf c3Text = true ∧
    parse_tool_calls c3Text ≠ [alphaCall, betaCall] := by
  refine ⟨rfl, by decide, ?_⟩
  rw [show parse_tool_calls c3Text = [betaCall, alphaCall] from rfl]
  simp only [alphaCall, betaCall]
  intro h
  simp at h

/-- Claim C3, amended: the parser returns the grammar-A calls in text order
followed by the grammar-B calls in text order (concatenated by grammar, not
interleaved by text position); a grammar-A block whose body fails to load as
JSON contributes zero calls and raises nothing, so when every grammar-A body
is malformed the result is exactly the grammar-B calls, and the empty list
is a valid result. -/
theorem C3_amended :
    ∀ s : Str,
      parse_tool_calls s =
        ((xmlBodies s).filterMap jsonLoads) ++ ((funcMatches s).map toolCallOfFunc) ∧
      ((∀ b ∈ xmlBodies s, jsonLoads b = none) →
        parse_tool_calls s = (funcMatches s).map toolCallOfFunc) := by
  intro s
  refine ⟨rfl, fun h => ?_⟩
  unfold parse_tool_calls
  rw [List.filterMap_eq_nil_iff.2 h]
  simp

/-- Witness for C3 at a concrete input: one malformed grammar-A block
contributes zero calls while the grammar-B call is still returned. -/
theorem C3_witness :
    parse_tool_calls c3wText = (funcMatches c3wText).map toolCallOfFunc ∧
    (funcMatches c3wText).map toolCallOfFunc =
      [Json.obj [("name".data, Json.str ("f".data)),
                 ("parameters".data, Json.obj [("q".data, Json.str ("z".data))])]] ∧
    xmlBodies c3wText = [("\x7bnot json\x7d".data)] := by
  refine ⟨(C3_amended c3wText).2 ?_, rfl, rfl⟩
  intro b hb
  rw [show xmlBodies c3wText = [("\x7bnot json\x7d".data)] from rfl] at hb
  rcases List.mem_singleton.1 hb with rfl
  rfl

theorem recPercents_append_cb (evs : List PEvent) (s : Str) (p : Int) :
    recPercents (evs ++ [PEvent.cb s p]) = recPercents evs := by
  simp [recPercents, List.filterMap_append, recPercent]

theorem reactEmit_fields (cbT : Option (Int → Int)) (iter : Nat) (st : RSt) :
    (reactEmit cbT iter st).chatIdx = st.chatIdx ∧
    (reactEmit cbT iter st).count = st.count ∧
    (reactEmit cbT iter st).executed = st.executed ∧
    (reactEmit cbT iter st).toolIdx = st.toolIdx ∧
    (reactEmit cbT iter st).msgs = st.msgs ∧
    recPercents (reactEmit cbT iter st).events = recPercents st.events := by
  cases cbT with
  | none => exact ⟨rfl, rfl, rfl, rfl, rfl, rfl⟩
  | some f => exact ⟨rfl, rfl, rfl, rfl, rfl, recPercents_append_cb _ _ _⟩

theorem execToolCalls_state (env : LLMEnv) :
    ∀ (calls : List Json) (st : RSt) (results : List Str), reactJ st →
      reactJ (execOutSt (execToolCalls env calls st results)) ∧
      (execOutSt (execToolCalls env calls st results)).chatIdx = st.chatIdx ∧
      (execOutSt (execToolCalls env calls st results)).msgs = st.msgs ∧
      (execOutSt (execToolCalls env calls st results)).events = st.events := by
  intro calls
  induction calls with
  | nil => intro st results h; exact ⟨h, rfl, rfl, rfl⟩
  | cons c rest ih =>
    intro st results h
    simp only [execToolCalls]
    split
    · exact ⟨h, rfl, rfl, rfl⟩
    · rename_i hlt
      cases hn : pyGetItem c ("name".data) with
      | error e => exact ⟨h, rfl, rfl, rfl⟩
      | ok nm =>
        cases hp : pyDictGet c ("parameters".data) (Json.obj []) with
        | error e => exact ⟨h, rfl, rfl, rfl⟩
        | ok u =>
          have h' : reactJ { st with count := st.count + 1, toolIdx := st.toolIdx + 1,
                                     executed := st.executed ++ [c] } := by
            constructor
            · show st.count + 1 = (st.executed ++ [c]).length
              simp [h.1]
            · show st.count + 1 ≤ MAX_TOOL_CALLS_PER_SECTION
              have hc : st.count < MAX_TOOL_CALLS_PER_SECTION := Nat.lt_of_not_le hlt
              omega
          exact ih _ _ h'

theorem execToolCalls_exhausted (env : LLMEnv) (calls : List Json) (st : RSt)
    (results : List Str) (h : st.count ≥ MAX_TOOL_CALLS_PER_SECTION) :
    execToolCalls env calls st results = .ok (st, results) := by
  cases calls with
  | nil => rfl
  | cons c rest => simp only [execToolCalls]; rw [if_pos h]

theorem reactRound_state (env : LLMEnv) (cbT : Option (Int → Int)) (iter : Nat)
    (st : RSt) (h : reactJ st) :
    reactJ (roundOutSt (reactRound env cbT iter st)) ∧
    (roundOutSt (reactRound env cbT iter st)).chatIdx = st.chatIdx + 1 ∧
    recPercents (roundOutSt (reactRound env cbT iter st)).events = recPercents st.events := by
  obtain ⟨he1, he2, he3, he4, he5, he6⟩ := reactEmit_fields cbT iter st
  have hJe : reactJ (reactEmit cbT iter st) := by
    unfold reactJ at h ⊢; rw [he2, he3]; exact h
  simp only [reactRound]
  split
  · exact ⟨hJe, by simp [roundOutSt, he1], by simp [roundOutSt, he6]⟩
  · split
    · exact ⟨hJe, by simp [roundOutSt, he1], by simp [roundOutSt, he6]⟩
    · have hx := execToolCalls_state env
        (parse_tool_calls (env.chat (reactEmit cbT iter st).chatIdx))
        { reactEmit cbT iter st with chatIdx := (reactEmit cbT iter st).chatIdx + 1 } []
        (by unfold reactJ at hJe ⊢; exact hJe)
      cases hex : execToolCalls env
          (parse_tool_calls (env.chat (reactEmit cbT iter st).chatIdx))
          { reactEmit cbT iter st with chatIdx := (reactEmit cbT iter st).chatIdx + 1 } [] with
      | error es =>
        rw [hex] at hx
        simp only [execOutSt] at hx
        refine ⟨hx.1, ?_, ?_⟩
        · simp [roundOutSt, hx.2.1, he1]
        · simp [roundOutSt, hx.2.2.2, he6]
      | ok out =>
        rw [hex] at hx
        simp only [execOutSt] at hx
        refine ⟨⟨hx.1.1, hx.1.2⟩, ?_, ?_⟩
        · simp [roundOutSt, hx.2.1, he1]
        · simp [roundOutSt, hx.2.2.2, he6]

theorem reactLoop_state (env : LLMEnv) (cbT : Option (Int → Int)) :
    ∀ (fuel : Nat) (st : RSt), reactJ st →
      reactJ (reactOutSt (reactLoop env cbT fuel st)) ∧
      (reactOutSt (reactLoop env cbT fuel st)).chatIdx ≤ st.chatIdx + fuel + 1 ∧
      recPercents (reactOutSt (reactLoop env cbT fuel st)).events = recPercents st.events := by
  intro fuel
  induction fuel with
  | zero =>
    intro st h
    simp only [reactLoop]
    split
    · exact ⟨h, by simp [reactOutSt], by simp [reactOutSt]⟩
    · exact ⟨h, by simp [reactOutSt], by simp [reactOutSt]⟩
  | succ fuel ih =>
    intro st h
    have hr := reactRound_state env cbT (reactMaxIterations - (fuel + 1)) st h
    simp only [reactLoop]
    cases hx : reactRound env cbT (reactMaxIterations - (fuel + 1)) st with
    | error e =>
      rw [hx] at hr
      simp only [roundOutSt] at hr
      exact ⟨hr.1, by simp [reactOutSt]; omega, by simp [reactOutSt, hr.2.2]⟩
    | ok v =>
      cases v with
      | inl r =>
        rw [hx] at hr
        simp only [roundOutSt] at hr
        exact ⟨hr.1, by simp [reactOutSt]; omega, by simp [reactOutSt, hr.2.2]⟩
      | inr st' =>
        rw [hx] at hr
        simp only [roundOutSt] at hr
        have := ih st' hr.1
        refine ⟨this.1, ?_, by rw [this.2.2, hr.2.2]⟩
        calc (reactOutSt (reactLoop env cbT fuel st')).chatIdx
            ≤ st'.chatIdx + fuel + 1 := this.2.1
          _ = st.chatIdx + 1 + fuel + 1 := by rw [hr.2.1]
          _ ≤ st.chatIdx + (fuel + 1) + 1 := by omega

/-- Claim C5: for every invocation of `_generate_section_react` — whatever
the model and tool oracles do — at most `MAX_TOOL_CALLS_PER_SECTION` (5)
tool executions are performed, the loop issues at most
`MAX_TOOL_CALLS_PER_SECTION + 2` (7) round model calls plus the one forced
finalization call, and any round started with the budget exhausted whose
response parses calls (of any count) executes zero tools while still
appending a finalization-demanding observation to the conversation. -/
theorem C5_react_budget_and_rounds :
    ∀ (cfg : AgentCfg) (env : LLMEnv) (cbT : Option (Int → Int)) (sec : ReportSection)
      (outline : ReportOutline) (previous : List Str) (c0 t0 : Nat) (evs0 : List PEvent),
      (reactOutSt (generate_section_react cfg env cbT sec outline previous c0 t0 evs0)).executed.length
          ≤ MAX_TOOL_CALLS_PER_SECTION ∧
      (reactOutSt (generate_section_react cfg env cbT sec outline previous c0 t0 evs0)).chatIdx
          ≤ c0 + reactMaxIterations + 1 ∧
      (∀ (iter : Nat) (st : RSt),
        st.count = MAX_TOOL_CALLS_PER_SECTION →
        containsSub finalMarker (env.chat st.chatIdx) = false →
        (parse_tool_calls (env.chat st.chatIdx)).isEmpty = false →
        reactRound env cbT iter st = exhaustedRoundResult env cbT iter st) := by
  intro cfg env cbT sec outline previous c0 t0 evs0
  have h0 : reactJ { msgs := [Msg.mk ("system".data) (reactSystemPrompt cfg outline sec),
                              Msg.mk ("user".data) (reactUserPrompt previous sec)],
                     count := 0, executed := [], chatIdx := c0, toolIdx := t0,
                     events := evs0 } := ⟨rfl, by simp [MAX_TOOL_CALLS_PER_SECTION]⟩
  have hl := reactLoop_state env cbT reactMaxIterations _ h0
  refine ⟨?_, ?_, ?_⟩
  · have := hl.1
    unfold reactJ at this
    unfold generate_section_react
    omega
  · exact hl.2.1
  · intro iter st hcount hfin hcalls
    obtain ⟨he1, he2, he3, he4, he5, he6⟩ := reactEmit_fields cbT iter st
    simp only [reactRound, exhaustedRoundResult, he1]
    rw [hfin]
    simp only [Bool.false_eq_true, if_false]
    rw [hcalls]
    simp only [Bool.false_eq_true, if_false]
    rw [execToolCalls_exhausted env _ _ _ (by rw [he2, hcount])]

/-- Witness for C5 at a concrete exhausted state: the round's response
parses one call, yet zero tools execute and the finalization-demanding
observation is appended. -/
theorem C5_witness :
    reactRound c5wEnv none 5 c5wSt = exhaustedRoundResult c5wEnv none 5 c5wSt :=
  (C5_react_budget_and_rounds cfgW c5wEnv none (ReportSection.mk ("A".data) [] [])
      outlineW [] 0 0 []).2.2 5 c5wSt rfl (by decide) (by decide)

theorem genBody_ok_status (cfg : AgentCfg) (env : GenEnv) (rid ca comp : Str)
    (r : Report) (st : GenSt)
    (h : genBody cfg env rid ca comp = .ok (r, st)) : r.status = .completed := by
  unfold genBody at h
  dsimp only at h
  cases h1 : persistOp env ⟨0, 0, 0, [], []⟩ id with
  | error x => obtain ⟨e1, s1⟩ := x; rw [h1] at h; simp at h
  | ok st1 =>
  rw [h1] at h; dsimp only at h
  cases h2 : updateProgress env st1 ("pending".data) 0 with
  | error x => obtain ⟨e1, s1⟩ := x; rw [h2] at h; simp at h
  | ok st2 =>
  rw [h2] at h; dsimp only at h
  cases h3 : persistOp env st2 id with
  | error x => obtain ⟨e1, s1⟩ := x; rw [h3] at h; simp at h
  | ok st3 =>
  rw [h3] at h; dsimp only at h
  cases h4 : updateProgress env st3 ("planning".data) 5 with
  | error x => obtain ⟨e1, s1⟩ := x; rw [h4] at h; simp at h
  | ok st4 =>
  rw [h4] at h; dsimp only at h
  cases h5 : plan_outline env.hasCallback env.plan with
  | error x => obtain ⟨e1, s1⟩ := x; rw [h5] at h; simp at h
  | ok y =>
  obtain ⟨outline, pevs⟩ := y
  rw [h5] at h; dsimp only at h
  cases h6 : persistOp env
      { cbEmit env st4 ("planning".data) 0 with
        events := (cbEmit env st4 ("planning".data) 0).events ++ wrapPlanEvents pevs } id with
  | error x => obtain ⟨e1, s1⟩ := x; rw [h6] at h; simp at h
  | ok st6 =>
  rw [h6] at h; dsimp only at h
  cases h7 : updateProgress env st6 ("planning".data) 15 with
  | error x => obtain ⟨e1, s1⟩ := x; rw [h7] at h; simp at h
  | ok st7 =>
  rw [h7] at h; dsimp only at h
  cases h8 : persistOp env st7 id with
  | error x => obtain ⟨e1, s1⟩ := x; rw [h8] at h; simp at h
  | ok st8 =>
  rw [h8] at h; dsimp only at h
  cases h9 : secsLoop cfg env outline outline.sections.length outline.sections 0 [] [] st8 with
  | error x => obtain ⟨e1, s1, s2⟩ := x; rw [h9] at h; simp at h
  | ok y =>
  obtain ⟨secs', gen', st9⟩ := y
  rw [h9] at h; dsimp only at h
  cases h10 : updateProgress env (cbEmit env st9 ("generating".data) 95)
      ("generating".data) 95 with
  | error x => obtain ⟨e1, s1⟩ := x; rw [h10] at h; simp at h
  | ok st10 =>
  rw [h10] at h; dsimp only at h
  cases h11 : assemble_full_report st10.store { outline with sections := secs' } with
  | error e1 => rw [h11] at h; simp at h
  | ok y =>
  obtain ⟨md, store'⟩ := y
  rw [h11] at h; dsimp only at h
  cases h12 : persistOp env st10 (fun s => { s with store := store' }) with
  | error x => obtain ⟨e1, s1⟩ := x; rw [h12] at h; simp at h
  | ok st12 =>
  rw [h12] at h; dsimp only at h
  cases h13 : persistOp env st12 id with
  | error x => obtain ⟨e1, s1⟩ := x; rw [h13] at h; simp at h
  | ok st13 =>
  rw [h13] at h; dsimp only at h
  cases h14 : updateProgress env st13 ("completed".data) 100 with
  | error x => obtain ⟨e1, s1⟩ := x; rw [h14] at h; simp at h
  | ok st14 =>
  rw [h14] at h; dsimp only at h
  simp only [Except.ok.injEq, Prod.mk.injEq] at h
  rw [← h.1]

/-- Claim C2: for every exception raised inside `generate_report` at any
stage, the call returns the partially-populated report with status `failed`
and the exception text in the error field instead of propagating; a further
exception while persisting this failure state is swallowed (the same report
is returned whatever the persistence oracle answers), so the caller always
receives a report whose status is definitively `completed` or `failed`. -/
theorem C2_failure_returns_failed_report :
    ∀ (cfg : AgentCfg) (env : GenEnv) (rid ca comp : Str),
      (∀ (e : Str) (r : Report) (st : GenSt),
        genBody cfg env rid ca comp = .error (e, r, st) →
        (generate_report cfg env rid ca comp).1 =
          { r with status := .failed, error := some e }) ∧
      ((generate_report cfg env rid ca comp).1.status = .completed ∨
       (generate_report cfg env rid ca comp).1.status = .failed) := by
  intro cfg env rid ca comp
  constructor
  · intro e r st h
    simp only [generate_report, h]
    repeat' split
    all_goals rfl
  · cases hb : genBody cfg env rid ca comp with
    | ok out =>
      left
      have hs : out.1.status = .completed := genBody_ok_status cfg env rid ca comp out.1 out.2 (by rw [hb])
      simp only [generate_report, hb]
      exact hs
    | error eo =>
      right
      obtain ⟨e, r, st⟩ := eo
      simp only [generate_report, hb]
      repeat' split
      all_goals rfl

/-- Witness for C2 at a concrete failing run: the retrieval collaborator
raises during planning-context fetch and the caller still receives a report
with status `failed` and that exception text. -/
theorem C2_witness :
    (generate_report cfgW c2Env ("rid".data) ("ca".data) ("co".data)).1 =
      { initialReport cfgW ("rid".data) ("ca".data) with
        status := .failed, error := some ("zep down".data) } :=
  (C2_failure_returns_failed_report cfgW c2Env ("rid".data) ("ca".data) ("co".data)).1
    ("zep down".data)
    { initialReport cfgW ("rid".data) ("ca".data) with status := .planning }
    ⟨0, 0, 4, [PEvent.record ("pending".data) 0, PEvent.record ("planning".data) 5], []⟩
    rfl

/-- Claim C4, counterexample: in a completing run with one section having
one subsection, the persisted progress record percents are
0, 5, 15, 20, 90, 25, 95, 100 — the subsection record (25) is lower than
the preceding section-completion record (90), so the reported progress is
not monotonically non-decreasing. -/
theorem C4_counterexample :
    recPercents (generate_report cfgW c4Env ("rid".data) ("ca".data) ("co".data)).2.events =
      [0, 5, 15, 20, 90, 25, 95, 100] ∧
    chainLe (recPercents
      (generate_report cfgW c4Env ("rid".data) ("ca".data) ("co".data)).2.events) = false := by
  exact ⟨rfl, rfl⟩

theorem persistOp_ok (env : GenEnv) (st : GenSt) (act : GenSt → GenSt) (st' : GenSt)
    (h : persistOp env st act = .ok st') :
    st' = act { st with persistIdx := st.persistIdx + 1 } := by
  unfold persistOp at h
  cases hp : env.persistOk st.persistIdx with
  | some e => rw [hp] at h; simp at h
  | none => rw [hp] at h; simp only [Except.ok.injEq] at h; exact h.symm

theorem updateProgress_ok (env : GenEnv) (st : GenSt) (status : Str) (pct : Int)
    (st' : GenSt) (h : updateProgress env st status pct = .ok st') :
    recPercents st'.events = recPercents st.events ++ [pct] := by
  have := persistOp_ok env st _ st' h
  rw [this]
  simp [recPercents, List.filterMap_append, recPercent]

theorem cbEmit_recPercents (env : GenEnv) (st : GenSt) (s : Str) (p : Int) :
    recPercents (cbEmit env st s p).events = recPercents st.events := by
  unfold cbEmit
  split
  · simp [recPercents, List.filterMap_append, recPercent]
  · rfl

theorem plan_outline_ok_noRecords (cbOn : Bool) (envp : PlanEnv) (o : ReportOutline)
    (pevs : List PEvent) (h : plan_outline cbOn envp = .ok (o, pevs)) :
    recPercents (wrapPlanEvents pevs) = [] := by
  unfold plan_outline at h
  cases hc : envp.ctxFetch with
  | error e => rw [hc] at h; simp at h
  | ok u =>
  cases u
  rw [hc] at h; dsimp only at h
  cases hj : envp.chatJson with
  | error e =>
    rw [hj] at h
    simp only [Except.ok.injEq, Prod.mk.injEq] at h
    rw [← h.2]
    cases cbOn <;> rfl
  | ok r =>
    rw [hj] at h; dsimp only at h
    simp only [Except.ok.injEq, Prod.mk.injEq] at h
    rw [← h.2]
    cases cbOn <;> rfl

theorem subsLoop_nil_eq (cfg : AgentCfg) (env : GenEnv) (outline : ReportOutline)
    (i n len : Nat) (base : Int) (j : Nat) (done : List ReportSection)
    (generated : List Str) (st : GenSt) :
    subsLoop cfg env outline i n len base [] j done generated st = .ok (done, generated, st) := rfl

theorem secsLoop_records (cfg : AgentCfg) (env : GenEnv) (outline : ReportOutline) (n : Nat) :
    ∀ (pending : List ReportSection) (i : Nat) (done : List ReportSection)
      (generated : List Str) (st : GenSt) (out : List ReportSection × List Str × GenSt),
      (∀ sec ∈ pending, sec.subsections = ([] : List ReportSection)) →
      secsLoop cfg env outline n pending i done generated st = .ok out →
      recPercents out.2.2.events = recPercents st.events ++ secPat n i pending.length := by
  intro pending
  induction pending with
  | nil =>
    intro i done generated st out _ h
    simp only [secsLoop, Except.ok.injEq] at h
    rw [← h]
    simp [secPat]
  | cons sec rest ih =>
    intro i done generated st out hsubs h
    simp only [secsLoop] at h
    cases h1 : updateProgress env st ("generating".data) (20 + ((70 * i / n : Nat) : Int)) with
    | error x => obtain ⟨e1, s1⟩ := x; rw [h1] at h; simp at h
    | ok st1 =>
    rw [h1] at h; dsimp only at h
    cases h2 : generate_section_react cfg env.llm
        (if env.hasCallback then
          some (fun p => (20 + ((70 * i / n : Nat) : Int)) + 7 * p / (10 * (n : Int)))
         else none)
        sec outline generated
        (cbEmit env st1 ("generating".data) (20 + ((70 * i / n : Nat) : Int))).chatIdx
        (cbEmit env st1 ("generating".data) (20 + ((70 * i / n : Nat) : Int))).toolIdx
        (cbEmit env st1 ("generating".data) (20 + ((70 * i / n : Nat) : Int))).events with
    | error x => obtain ⟨e1, s1⟩ := x; rw [h2] at h; simp at h
    | ok y =>
    obtain ⟨content, rst⟩ := y
    rw [h2] at h; dsimp only at h
    have hreact : recPercents rst.events =
        recPercents (cbEmit env st1 ("generating".data)
          (20 + ((70 * i / n : Nat) : Int))).events := by
      have hl := reactLoop_state env.llm
        (if env.hasCallback then
          some (fun p => (20 + ((70 * i / n : Nat) : Int)) + 7 * p / (10 * (n : Int)))
         else none) reactMaxIterations
        { msgs := [Msg.mk ("system".data) (reactSystemPrompt cfg outline sec),
                   Msg.mk ("user".data) (reactUserPrompt generated sec)],
          count := 0, executed := [],
          chatIdx := (cbEmit env st1 ("generating".data)
            (20 + ((70 * i / n : Nat) : Int))).chatIdx,
          toolIdx := (cbEmit env st1 ("generating".data)
            (20 + ((70 * i / n : Nat) : Int))).toolIdx,
          events := (cbEmit env st1 ("generating".data)
            (20 + ((70 * i / n : Nat) : Int))).events }
        ⟨rfl, by simp [MAX_TOOL_CALLS_PER_SECTION]⟩
      unfold generate_section_react at h2
      rw [h2] at hl
      exact hl.2.2
    cases h3 : (persistOp env (absorb (cbEmit env st1 ("generating".data)
        (20 + ((70 * i / n : Nat) : Int))) rst)
        (fun s =>
          { s with
              store := save_section s.store (i + 1) (sec.withContent content) false none })) with
    | error x => obtain ⟨e1, s1⟩ := x; rw [h3] at h; simp at h
    | ok st3 =>
    rw [h3] at h; dsimp only at h
    cases h4 : updateProgress env st3 ("generating".data)
        ((20 + ((70 * i / n : Nat) : Int)) + ((70 / n : Nat) : Int)) with
    | error x => obtain ⟨e1, s1⟩ := x; rw [h4] at h; simp at h
    | ok st4 =>
    rw [h4] at h; dsimp only at h
    rw [hsubs sec (List.mem_cons_self sec rest), subsLoop_nil_eq] at h
    dsimp only at h
    have hrest := ih (i + 1) (done ++ [ReportSection.mk sec.title content []])
      (generated ++ [("## ".data ++ sec.title ++ "\n\n".data ++ content)])
      st4 out (fun s hs => hsubs s (List.mem_cons_of_mem sec hs)) h
    rw [hrest]
    have e4 := updateProgress_ok env st3 _ _ st4 h4
    have e3 : st3.events = (absorb (cbEmit env st1 ("generating".data)
        (20 + ((70 * i / n : Nat) : Int))) rst).events := by
      rw [persistOp_ok env _ _ st3 h3]
    have e1 := updateProgress_ok env st _ _ st1 h1
    rw [e4, e3]
    show recPercents rst.events ++ _ ++ _ = _
    rw [hreact, cbEmit_recPercents, e1]
    simp [secPat, List.append_assoc]

theorem genBody_records (cfg : AgentCfg) (env : GenEnv) (rid ca comp : Str)
    (r : Report) (st : GenSt)
    (h : genBody cfg env rid ca comp = .ok (r, st))
    (hplan : ∀ (o : ReportOutline) (pevs : List PEvent),
      plan_outline env.hasCallback env.plan = .ok (o, pevs) →
      ∀ sec ∈ o.sections, sec.subsections = ([] : List ReportSection)) :
    ∃ n, recPercents st.events = ([0, 5, 15] : List Int) ++ secPat n 0 n ++ [95, 100] := by
  unfold genBody at h
  dsimp only at h
  cases h1 : persistOp env ⟨0, 0, 0, [], []⟩ id with
  | error x => obtain ⟨e1, s1⟩ := x; rw [h1] at h; simp at h
  | ok st1 =>
  rw [h1] at h; dsimp only at h
  have ev1 : st1.events = [] := by rw [persistOp_ok env _ _ st1 h1]; rfl
  cases h2 : updateProgress env st1 ("pending".data) 0 with
  | error x => obtain ⟨e1, s1⟩ := x; rw [h2] at h; simp at h
  | ok st2 =>
  rw [h2] at h; dsimp only at h
  have ev2 : recPercents st2.events = [0] := by
    rw [updateProgress_ok env st1 _ _ st2 h2, ev1]; rfl
  cases h3 : persistOp env st2 id with
  | error x => obtain ⟨e1, s1⟩ := x; rw [h3] at h; simp at h
  | ok st3 =>
  rw [h3] at h; dsimp only at h
  have ev3 : recPercents st3.events = [0] := by
    rw [persistOp_ok env _ _ st3 h3]; exact ev2
  cases h4 : updateProgress env st3 ("planning".data) 5 with
  | error x => obtain ⟨e1, s1⟩ := x; rw [h4] at h; simp at h
  | ok st4 =>
  rw [h4] at h; dsimp only at h
  have ev4 : recPercents st4.events = [0, 5] := by
    rw [updateProgress_ok env st3 _ _ st4 h4, ev3]; rfl
  cases h5 : plan_outline env.hasCallback env.plan with
  | error x => obtain ⟨e1, s1⟩ := x; rw [h5] at h; simp at h
  | ok y =>
  obtain ⟨outline, pevs⟩ := y
  rw [h5] at h; dsimp only at h
  have hsubs : ∀ sec ∈ outline.sections, sec.subsections = ([] : List ReportSection) :=
    hplan outline pevs h5
  have ev5 : recPercents ((cbEmit env st4 ("planning".data) 0).events ++
      wrapPlanEvents pevs) = [0, 5] := by
    rw [recPercents, List.filterMap_append, ← recPercents, ← recPercents,
      cbEmit_recPercents, plan_outline_ok_noRecords env.hasCallback env.plan outline pevs h5,
      ev4, List.append_nil]
  cases h6 : persistOp env
      { cbEmit env st4 ("planning".data) 0 with
        events := (cbEmit env st4 ("planning".data) 0).events ++ wrapPlanEvents pevs } id with
  | error x => obtain ⟨e1, s1⟩ := x; rw [h6] at h; simp at h
  | ok st6 =>
  rw [h6] at h; dsimp only at h
  have ev6 : recPercents st6.events = [0, 5] := by
    rw [persistOp_ok env _ _ st6 h6]; exact ev5
  cases h7 : updateProgress env st6 ("planning".data) 15 with
  | error x => obtain ⟨e1, s1⟩ := x; rw [h7] at h; simp at h
  | ok st7 =>
  rw [h7] at h; dsimp only at h
  have ev7 : recPercents st7.events = [0, 5, 15] := by
    rw [updateProgress_ok env st6 _ _ st7 h7, ev6]; rfl
  cases h8 : persistOp env st7 id with
  | error x => obtain ⟨e1, s1⟩ := x; rw [h8] at h; simp at h
  | ok st8 =>
  rw [h8] at h; dsimp only at h
  have ev8 : recPercents st8.events = [0, 5, 15] := by
    rw [persistOp_ok env _ _ st8 h8]; exact ev7
  cases h9 : secsLoop cfg env outline outline.sections.length outline.sections 0 [] [] st8 with
  | error x => obtain ⟨e1, s1, s2⟩ := x; rw [h9] at h; simp at h
  | ok y =>
  obtain ⟨secs', gen', st9⟩ := y
  rw [h9] at h; dsimp only at h
  have ev9 : recPercents st9.events =
      ([0, 5, 15] : List Int) ++
        secPat outline.sections.length 0 outline.sections.length := by
    have := secsLoop_records cfg env outline outline.sections.length
      outline.sections 0 [] [] st8 (secs', gen', st9) hsubs h9
    rw [ev8] at this
    exact this
  cases h10 : updateProgress env (cbEmit env st9 ("generating".data) 95)
      ("generating".data) 95 with
  | error x => obtain ⟨e1, s1⟩ := x; rw [h10] at h; simp at h
  | ok st10 =>
  rw [h10] at h; dsimp only at h
  have ev10 : recPercents st10.events =
      (([0, 5, 15] : List Int) ++
        secPat outline.sections.length 0 outline.sections.length) ++ [95] := by
    rw [updateProgress_ok env _ _ _ st10 h10, cbEmit_recPercents, ev9]
  cases h11 : assemble_full_report st10.store { outline with sections := secs' } with
  | error e1 => rw [h11] at h; simp at h
  | ok y =>
  obtain ⟨md, store'⟩ := y
  rw [h11] at h; dsimp only at h
  cases h12 : (persistOp env st10 (fun s => { s with store := store' })) with
  | error x => obtain ⟨e1, s1⟩ := x; rw [h12] at h; simp at h
  | ok st12 =>
  rw [h12] at h; dsimp only at h
  have ev12 : recPercents st12.events = recPercents st10.events := by
    rw [persistOp_ok env _ _ st12 h12]
  cases h13 : persistOp env st12 id with
  | error x => obtain ⟨e1, s1⟩ := x; rw [h13] at h; simp at h
  | ok st13 =>
  rw [h13] at h; dsimp only at h
  have ev13 : recPercents st13.events = recPercents st10.events := by
    rw [persistOp_ok env _ _ st13 h13]; exact ev12
  cases h14 : updateProgress env st13 ("completed".data) 100 with
  | error x => obtain ⟨e1, s1⟩ := x; rw [h14] at h; simp at h
  | ok st14 =>
  rw [h14] at h; dsimp only at h
  simp only [Except.ok.injEq, Prod.mk.injEq] at h
  refine ⟨outline.sections.length, ?_⟩
  rw [← h.2, cbEmit_recPercents, updateProgress_ok env st13 _ _ st14 h14, ev13, ev10]
  simp

theorem div_mul_le_70 (n i : Nat) (h : i ≤ n) : (70 * i / n : Nat) ≤ 70 := by
  rcases Nat.eq_zero_or_pos n with rfl | hn
  · simp
  · calc 70 * i / n ≤ 70 * n / n := Nat.div_le_div_right (Nat.mul_le_mul_left 70 h)
      _ = 70 := Nat.mul_div_cancel 70 hn

theorem secPat_chain (n : Nat) :
    ∀ (k i : Nat) (prev : Int), i + k ≤ n → prev ≤ 20 + ((70 * i / n : Nat) : Int) →
      chainLe (prev :: (secPat n i k ++ [95, 100])) = true := by
  intro k
  induction k with
  | zero =>
    intro i prev hik hprev
    have hb : (70 * i / n : Nat) ≤ 70 := div_mul_le_70 n i (by omega)
    have hb' : ((70 * i / n : Nat) : Int) ≤ 70 := by exact_mod_cast hb
    simp only [secPat, List.nil_append]
    simp [chainLe]
    omega
  | succ k ihk =>
    intro i prev hik hprev
    have hstep : (70 * i / n : Nat) + (70 / n : Nat) ≤ (70 * (i + 1) / n : Nat) := by
      have := Nat.add_div_le_add_div (70 * i) 70 n
      have he : 70 * i + 70 = 70 * (i + 1) := by ring
      rw [he] at this
      exact this
    have hstep' : ((70 * i / n : Nat) : Int) + ((70 / n : Nat) : Int) ≤
        ((70 * (i + 1) / n : Nat) : Int) := by exact_mod_cast hstep
    simp only [secPat, List.cons_append]
    rw [show chainLe (prev :: (20 + ((70 * i / n : Nat) : Int)) ::
          ((20 + ((70 * i / n : Nat) : Int)) + ((70 / n : Nat) : Int)) ::
          (secPat n (i + 1) k ++ [95, 100])) =
        (decide (prev ≤ 20 + ((70 * i / n : Nat) : Int)) &&
         (decide ((20 + ((70 * i / n : Nat) : Int)) ≤
            (20 + ((70 * i / n : Nat) : Int)) + ((70 / n : Nat) : Int)) &&
          chainLe (((20 + ((70 * i / n : Nat) : Int)) + ((70 / n : Nat) : Int)) ::
            (secPat n (i + 1) k ++ [95, 100])))) from rfl]
    have h1 : decide (prev ≤ 20 + ((70 * i / n : Nat) : Int)) = true :=
      decide_eq_true hprev
    have h2 : decide ((20 + ((70 * i / n : Nat) : Int)) ≤
        (20 + ((70 * i / n : Nat) : Int)) + ((70 / n : Nat) : Int)) = true :=
      decide_eq_true (le_add_of_nonneg_right (Int.natCast_nonneg (70 / n : Nat)))
    rw [h1, h2, ihk (i + 1) ((20 + ((70 * i / n : Nat) : Int)) + ((70 / n : Nat) : Int))
      (by omega) (by omega)]
    rfl

theorem records_chain (n : Nat) :
    chainLe (([0, 5, 15] : List Int) ++ (secPat n 0 n ++ [95, 100])) = true := by
  have h := secPat_chain n n 0 15 (by omega) (by simp)
  rw [show chainLe (([0, 5, 15] : List Int) ++ (secPat n 0 n ++ [95, 100])) =
      (decide ((0 : Int) ≤ 5) && (decide ((5 : Int) ≤ 15) &&
        chainLe ((15 : Int) :: (secPat n 0 n ++ [95, 100])))) from rfl]
  rw [h]
  rfl

/-- Claim C4, amended: in a completing run of `generate_report` whose
planned outline has no subsections, the persisted progress record percents
are non-decreasing (the trace is the deterministic sequence
0, 5, 15, then per section `20 + int(i/n*70)` and `+ int(70/n)`, then 95,
100); when a section has subsections the subsection progress records fall
below the preceding section-completion record, and the callback channel
similarly regresses — the original monotonicity claim fails there. -/
theorem C4_amended :
    ∀ (cfg : AgentCfg) (env : GenEnv) (rid ca comp : Str) (r : Report) (st : GenSt),
      genBody cfg env rid ca comp = .ok (r, st) →
      (∀ (o : ReportOutline) (pevs : List PEvent),
        plan_outline env.hasCallback env.plan = .ok (o, pevs) →
        ∀ sec ∈ o.sections, sec.subsections = ([] : List ReportSection)) →
      chainLe (recPercents st.events) = true := by
  intro cfg env rid ca comp r st h hplan
  obtain ⟨n, hn⟩ := genBody_records cfg env rid ca comp r st h hplan
  rw [hn, List.append_assoc]
  exact records_chain n

/-- Witness for C4 at a concrete completing subsection-free run: the record
trace of `c4wEnv` is non-decreasing. -/
theorem C4_witness : chainLe (recPercents c4wOut.2.events) = true := by
  refine C4_amended cfgW c4wEnv ("rid".data) ("ca".data) ("co".data)
    c4wOut.1 c4wOut.2 rfl ?_
  intro o pevs hp
  rw [show plan_outline c4wEnv.hasCallback c4wEnv.plan =
      .ok (planOutlineFromResponse
        { title := some ("T".data), summary := some ("S".data),
          sections := some [{ title := some ("A".data), subsections := some [] }] },
        []) from rfl] at hp
  simp only [Except.ok.injEq, Prod.mk.injEq] at hp
  obtain ⟨h1, _⟩ := hp
  subst h1
  intro sec hs
  simp [planOutlineFromResponse] at hs
  subst hs
  rfl

/-- Claim C9, counterexample: when all three rounds produce tool calls, the
bound-exhausted path returns the fourth model response verbatim — residual
tool-call syntax of grammar A survives in the text handed to the caller,
although the stripping function would have removed it. -/
theorem C9_counterexample :
    (chat cfgW c9Env ("hi".data) []).toOption.map (fun x => (x.1.response, x.1.tool_calls)) =
      some (c9Final, [c9Call, c9Call, c9Call]) ∧
    containsSub xmlOpen c9Final = true ∧
    cleanChatResponse c9Final ≠ c9Final := by
  refine ⟨rfl, rfl, ?_⟩
  rw [show cleanChatResponse c9Final = ("Done".data) from rfl]
  decide

theorem chatExecCalls_ok (env : LLMEnv) :
    ∀ (calls : List Json) (idx : Nat), calls.all callWellFormed = true →
      ∃ out, chatExecCalls env calls idx = .ok (idx + calls.length, out) := by
  intro calls
  induction calls with
  | nil => intro idx _; exact ⟨[], rfl⟩
  | cons c rest ih =>
    intro idx hall
    simp only [List.all_cons, Bool.and_eq_true] at hall
    obtain ⟨hc, hrest⟩ := hall
    unfold callWellFormed at hc
    cases c with
    | obj kvs =>
      cases hf : kvs.find? (fun p => p.1 == ("name".data)) with
      | none =>
        exfalso
        simp only [List.any_eq_true] at hc
        obtain ⟨x, hx, hpx⟩ := hc
        exact absurd hpx (by simpa using List.find?_eq_none.1 hf x hx)
      | some kv =>
        obtain ⟨out, hout⟩ := ih (idx + 1) hrest
        refine ⟨(kv.2, (env.tool idx).take 1000) :: out, ?_⟩
        simp only [chatExecCalls, pyGetItem, pyDictGet, hf]
        rw [hout]
        simp only [Except.ok.injEq, Prod.mk.injEq, List.length_cons]
        refine ⟨by omega, ?_⟩
        try rfl
        try trivial
    | null => simp at hc
    | bool b => simp at hc
    | num l => simp at hc
    | str s => simp at hc
    | arr xs => simp at hc

/-- Claim C9, amended: the chat loop strips residual tool-call syntax of
both grammars (and surrounding whitespace) only on the early path whose
response parses no calls; when every one of the three rounds parses calls,
one further model call is made on the accumulated conversation — without
any added no-tool instruction — and its text is returned verbatim,
unstripped, alongside all executed calls. -/
theorem C9_amended :
    ∀ (cfg : AgentCfg) (env : LLMEnv) (message : Str) (history : List Msg),
      ((parse_tool_calls (env.chat 0)).isEmpty = true →
        (chat cfg env message history).toOption.map (fun x => (x.1.response, x.1.tool_calls)) =
          some (cleanChatResponse (env.chat 0), [])) ∧
      ((∀ i, i < 3 → (parse_tool_calls (env.chat i)).isEmpty = false ∧
          (parse_tool_calls (env.chat i)).all callWellFormed = true) →
        (chat cfg env message history).toOption.map (fun x => (x.1.response, x.1.tool_calls)) =
          some (env.chat 3,
            parse_tool_calls (env.chat 0) ++ parse_tool_calls (env.chat 1) ++
              parse_tool_calls (env.chat 2))) := by
  intro cfg env message history
  constructor
  · intro h0
    unfold chat
    simp only [chatLoop]
    rw [h0]
    rfl
  · intro hall
    obtain ⟨hne0, hwf0⟩ := hall 0 (by omega)
    obtain ⟨hne1, hwf1⟩ := hall 1 (by omega)
    obtain ⟨hne2, hwf2⟩ := hall 2 (by omega)
    obtain ⟨out0, hout0⟩ := chatExecCalls_ok env (parse_tool_calls (env.chat 0)) 0 hwf0
    obtain ⟨out1, hout1⟩ :=
      chatExecCalls_ok env (parse_tool_calls (env.chat 1))
        (0 + (parse_tool_calls (env.chat 0)).length) hwf1
    obtain ⟨out2, hout2⟩ :=
      chatExecCalls_ok env (parse_tool_calls (env.chat 2))
        (0 + (parse_tool_calls (env.chat 0)).length +
          (parse_tool_calls (env.chat 1)).length) hwf2
    unfold chat
    simp only [chatLoop]
    rw [hne0]
    simp only [Bool.false_eq_true, if_false]
    rw [hout0]
    simp only [chatLoop]
    rw [hne1]
    simp only [Bool.false_eq_true, if_false]
    rw [hout1]
    simp only [chatLoop]
    rw [hne2]
    simp only [Bool.false_eq_true, if_false]
    rw [hout2]
    simp [List.append_assoc]
    exact ⟨_, ⟨_, rfl⟩, rfl, rfl⟩

/-- Witness for C9 at the concrete oracle `c9Env`: all three rounds parse a
well-formed call and the fourth response comes back verbatim with all
executed calls. -/
theorem C9_witness :
    (chat cfgW c9Env ("hi".data) []).toOption.map (fun x => (x.1.response, x.1.tool_calls)) =
      some (c9Env.chat 3,
        parse_tool_calls (c9Env.chat 0) ++ parse_tool_calls (c9Env.chat 1) ++
          parse_tool_calls (c9Env.chat 2)) :=
  (C9_amended cfgW c9Env ("hi".data) []).2 (by decide)

theorem scoreRel_total {α : Type} : IsTotal (Nat × α) (fun a b => b.1 ≤ a.1) :=
  ⟨fun a b => Nat.le_total b.1 a.1⟩

theorem scoreRel_transitive {α : Type} : IsTrans (Nat × α) (fun a b => b.1 ≤ a.1) :=
  ⟨fun _ _ _ hab hbc => le_trans hbc hab⟩

/-- Claim C8, counterexample: with an eleven-keyword query, a fact matching
only the individual keywords scores 110 and ranks strictly above the fact
that matches the full query exactly (score 100) — the claimed strict
ranking of exact matches fails. -/
theorem C8_counterexample :
    (local_search (.ok [c8Exact, c8Kw]) (.ok []) c8Query 10 ("edges".data)).edges =
      [c8Kw, c8Exact] ∧
    containsSub (pyLower c8Query) (pyLower c8Exact.fact) = true ∧
    containsSub (pyLower c8Query) (pyLower c8Kw.fact) = false ∧
    match_score (pyLower c8Query) (searchKeywords c8Query) c8Kw.fact = 110 ∧
    match_score (pyLower c8Query) (searchKeywords c8Query) c8Exact.fact = 100 := by
  exact ⟨rfl, rfl, rfl, rfl, rfl⟩

theorem sortByScoreDesc_filter {α : Type} (l : List (Nat × α)) (s : Nat) :
    (sortByScoreDesc l).filter (fun p => p.1 == s) = l.filter (fun p => p.1 == s) := by
  unfold sortByScoreDesc
  induction l with
  | nil => rfl
  | cons a l ih =>
    simp only [List.insertionSort]
    rw [List.orderedInsert_eq_take_drop, List.filter_append]
    have hsplit : (List.insertionSort (fun a b : Nat × α => b.1 ≤ a.1) l).filter
        (fun p => p.1 == s) =
        ((List.insertionSort (fun a b : Nat × α => b.1 ≤ a.1) l).takeWhile
          (fun b => decide ¬ (b.1 ≤ a.1))).filter (fun p => p.1 == s) ++
        ((List.insertionSort (fun a b : Nat × α => b.1 ≤ a.1) l).dropWhile
          (fun b => decide ¬ (b.1 ≤ a.1))).filter (fun p => p.1 == s) := by
      rw [← List.filter_append, List.takeWhile_append_dropWhile]
    by_cases hpa : a.1 = s
    · have htake : ((List.insertionSort (fun a b : Nat × α => b.1 ≤ a.1) l).takeWhile
          (fun b => decide ¬ (b.1 ≤ a.1))).filter (fun p => p.1 == s) = [] := by
        rw [List.filter_eq_nil_iff]
        intro x hx
        have hpx := List.mem_takeWhile_imp hx
        simp only [decide_eq_true_eq] at hpx
        simp only [beq_iff_eq]
        omega
      rw [htake, List.filter_cons]
      simp only [hpa, beq_self_eq_true, if_true]
      rw [List.filter_cons]
      simp only [hpa, beq_self_eq_true, if_true]
      rw [← ih, hsplit, htake]
      simp only [List.nil_append]
      rw [hpa]
    · have hfa : ((a.1 == s) : Bool) = false := by simp [hpa]
      rw [List.filter_cons]
      simp only [hfa, Bool.false_eq_true, if_false]
      rw [List.filter_cons]
      simp only [hfa, Bool.false_eq_true, if_false]
      rw [← ih, hsplit]

/-- Claim C8, amended: the edge block of the local fallback scores each
edge as the sum of the two per-field `match_score` values (100 for an exact
full-query substring match of a field, otherwise 10 per matched keyword
token), keeps only positive scores in enumeration order, returns the
top-`limit` by stable descending sort (equal scores keep enumeration
order), and an item ranks strictly above another whenever its total score
is higher — in particular an exact-matching fact (100 plus bonus) ranks
above keyword-only facts only while their token score stays below it,
which can fail once the query has ten or more keyword tokens. -/
theorem C8_amended :
    ∀ (edges : List EdgeInfo) (nodesR : Except Str (List NodeInfo)) (query : Str) (limit : Nat),
      (local_search (.ok edges) nodesR query limit ("edges".data)).edges =
        ((sortByScoreDesc (scoredEdges (pyLower query) (searchKeywords query) edges)).take
          limit).map Prod.snd ∧
      List.Pairwise (fun a b : Nat × EdgeInfo => b.1 ≤ a.1)
        (sortByScoreDesc (scoredEdges (pyLower query) (searchKeywords query) edges)) ∧
      (∀ s : Nat,
        (sortByScoreDesc (scoredEdges (pyLower query) (searchKeywords query) edges)).filter
            (fun p => p.1 == s) =
          (scoredEdges (pyLower query) (searchKeywords query) edges).filter
            (fun p => p.1 == s)) ∧
      (∀ (i j : Nat)
        (hi : i < ((sortByScoreDesc (scoredEdges (pyLower query) (searchKeywords query)
            edges)).take limit).length)
        (hj : j < ((sortByScoreDesc (scoredEdges (pyLower query) (searchKeywords query)
            edges)).take limit).length),
        i < j →
        (((sortByScoreDesc (scoredEdges (pyLower query) (searchKeywords query)
            edges)).take limit).get ⟨j, hj⟩).1 ≤
        (((sortByScoreDesc (scoredEdges (pyLower query) (searchKeywords query)
            edges)).take limit).get ⟨i, hi⟩).1) := by
  intro edges nodesR query limit
  haveI := scoreRel_total (α := EdgeInfo)
  haveI := scoreRel_transitive (α := EdgeInfo)
  refine ⟨rfl, ?_, fun s => sortByScoreDesc_filter _ s, ?_⟩
  · exact List.sorted_insertionSort _ _
  · intro i j hi hj hij
    have hp : List.Pairwise (fun a b : Nat × EdgeInfo => b.1 ≤ a.1)
        ((sortByScoreDesc (scoredEdges (pyLower query) (searchKeywords query) edges)).take
          limit) :=
      (List.sorted_insertionSort _ _).sublist (List.take_sublist _ _)
    exact List.pairwise_iff_get.1 hp ⟨i, hi⟩ ⟨j, hj⟩ hij

/-- Witness for C8 at the concrete two-edge instance: the second-ranked
item's score is bounded by the first's. -/
theorem C8_witness :
    (((sortByScoreDesc (scoredEdges (pyLower c8Query) (searchKeywords c8Query)
        [c8Exact, c8Kw])).take 10).get ⟨1, by decide⟩).1 ≤
    (((sortByScoreDesc (scoredEdges (pyLower c8Query) (searchKeywords c8Query)
        [c8Exact, c8Kw])).take 10).get ⟨0, by decide⟩).1 :=
  (C8_amended [c8Exact, c8Kw] (.ok []) c8Query 10).2.2.2 0 1 (by decide) (by decide)
    (by decide)

theorem lexLtB_cons (a b : Char) (as bs : Str) :
    lexLtB (a :: as) (b :: bs) =
      (if a < b then true else if b < a then false else lexLtB as bs) := rfl

theorem lexLtB_cons_same (c : Char) (as bs : Str) :
    lexLtB (c :: as) (c :: bs) = lexLtB as bs := by
  rw [lexLtB_cons, if_neg (lt_irrefl c), if_neg (lt_irrefl c)]

theorem lexLtB_irrefl : ∀ a : Str, lexLtB a a = false := by
  intro a
  induction a with
  | nil => rfl
  | cons c t ih => rw [lexLtB_cons_same]; exact ih

theorem lexLtB_asymm : ∀ a b : Str, lexLtB a b = true → lexLtB b a = false := by
  intro a
  induction a with
  | nil =>
    intro b h
    cases b with
    | nil => simp [lexLtB] at h
    | cons c t => rfl
  | cons c t ih =>
    intro b h
    cases b with
    | nil => simp [lexLtB] at h
    | cons c' t' =>
      rw [lexLtB_cons] at h ⊢
      rcases lt_trichotomy c c' with hc | hc | hc
      · rw [if_neg (asymm hc), if_pos hc]
      · subst hc
        rw [if_neg (lt_irrefl c), if_neg (lt_irrefl c)] at h ⊢
        exact ih t' h
      · rw [if_neg (asymm hc), if_pos hc] at h
        exact absurd h (by simp)

theorem lexLtB_connex : ∀ a b : Str, lexLtB a b = true ∨ a = b ∨ lexLtB b a = true := by
  intro a
  induction a with
  | nil =>
    intro b
    cases b with
    | nil => right; left; rfl
    | cons c t => left; rfl
  | cons c t ih =>
    intro b
    cases b with
    | nil => right; right; rfl
    | cons c' t' =>
      rcases lt_trichotomy c c' with hc | hc | hc
      · left; rw [lexLtB_cons, if_pos hc]
      · subst hc
        rcases ih t' with h | h | h
        · left; rw [lexLtB_cons_same]; exact h
        · right; left; rw [h]
        · right; right; rw [lexLtB_cons_same]; exact h
      · right; right; rw [lexLtB_cons, if_pos hc]

theorem lexLtB_trans : ∀ a b c : Str, lexLtB a b = true → lexLtB b c = true →
    lexLtB a c = true := by
  intro a
  induction a with
  | nil =>
    intro b c hab hbc
    cases b with
    | nil => simp [lexLtB] at hab
    | cons x t =>
      cases c with
      | nil => simp [lexLtB] at hbc
      | cons y u => rfl
  | cons x t ih =>
    intro b c hab hbc
    cases b with
    | nil => simp [lexLtB] at hab
    | cons y u =>
      cases c with
      | nil => simp [lexLtB] at hbc
      | cons z v =>
        rw [lexLtB_cons] at hab hbc ⊢
        rcases lt_trichotomy x y with hxy | hxy | hxy
        · rcases lt_trichotomy y z with hyz | hyz | hyz
          · rw [if_pos (lt_trans hxy hyz)]
          · subst hyz; rw [if_pos hxy]
          · rw [if_neg (asymm hyz), if_pos hyz] at hbc
            exact absurd hbc (by simp)
        · subst hxy
          rcases lt_trichotomy x z with hxz | hxz | hxz
          · rw [if_pos hxz]
          · subst hxz
            rw [if_neg (lt_irrefl x), if_neg (lt_irrefl x)] at hab hbc ⊢
            exact ih u v hab hbc
          · rw [if_neg (asymm hxz), if_pos hxz] at hbc
            exact absurd hbc (by simp)
        · rw [if_neg (asymm hxy), if_pos hxy] at hab
          exact absurd hab (by simp)

theorem lexLeP_total : IsTotal Str lexLeP := by
  refine ⟨fun a b => ?_⟩
  unfold lexLeP lexLeB
  cases h : lexLtB b a with
  | false => left; rfl
  | true => right; rw [lexLtB_asymm b a h]; rfl

theorem lexLeP_transitive : IsTrans Str lexLeP := by
  refine ⟨fun a b c hab hbc => ?_⟩
  unfold lexLeP lexLeB at hab hbc ⊢
  simp only [Bool.not_eq_true'] at hab hbc ⊢
  cases hca : lexLtB c a with
  | false => rfl
  | true =>
    exfalso
    rcases lexLtB_connex a b with h | h | h
    · rw [lexLtB_trans c a b hca h] at hbc; exact absurd hbc (by simp)
    · subst h; rw [hca] at hbc; exact absurd hbc (by simp)
    · rw [h] at hab; exact absurd hab (by simp)

theorem lexLeP_antisymmetric : IsAntisymm Str lexLeP := by
  refine ⟨fun a b hab hba => ?_⟩
  unfold lexLeP lexLeB at hab hba
  simp only [Bool.not_eq_true'] at hab hba
  rcases lexLtB_connex a b with h | h | h
  · rw [h] at hba; exact absurd hba (by simp)
  · exact h
  · rw [h] at hab; exact absurd hab (by simp)

theorem lexLtB_append_left : ∀ (p x y : Str), lexLtB (p ++ x) (p ++ y) = lexLtB x y := by
  intro p
  induction p with
  | nil => intro x y; rfl
  | cons c t ih => intro x y; rw [List.cons_append, List.cons_append, lexLtB_cons_same]; exact ih x y

theorem lexLtB_append_pair : ∀ (a b x y : Str), a.length = b.length →
    lexLtB (a ++ x) (b ++ y) = (lexLtB a b || (!(lexLtB b a) && lexLtB x y)) := by
  intro a
  induction a with
  | nil =>
    intro b x y hlen
    cases b with
    | nil => simp [lexLtB]
    | cons c t => simp at hlen
  | cons c t ih =>
    intro b x y hlen
    cases b with
    | nil => simp at hlen
    | cons c' t' =>
      simp only [List.length_cons, Nat.add_right_cancel_iff] at hlen
      rw [List.cons_append, List.cons_append, lexLtB_cons, lexLtB_cons, lexLtB_cons]
      rcases lt_trichotomy c c' with hc | hc | hc
      · rw [if_pos hc, if_pos hc, if_neg (asymm hc)]
        simp
      · subst hc
        rw [if_neg (lt_irrefl c), if_neg (lt_irrefl c), if_neg (lt_irrefl c),
          if_neg (lt_irrefl c), if_neg (lt_irrefl c), if_neg (lt_irrefl c)]
        exact ih t' x y hlen
      · simp only [if_neg (asymm hc), if_pos hc]
        simp

theorem pyIsDigit_ne_dot {c : Char} (h : pyIsDigit c = true) : ¬ c = '.' :=
  fun he => by rw [he] at h; exact absurd h (by decide)

theorem pyIsDigit_ne_us {c : Char} (h : pyIsDigit c = true) : ¬ c = '_' :=
  fun he => by rw [he] at h; exact absurd h (by decide)

theorem pad2_all_digits : ∀ i < 100, (pad2 i).all pyIsDigit = true := by decide

theorem pad2_length : ∀ i < 100, (pad2 i).length = 2 := by decide

theorem parseNatDigits_pad2 : ∀ i < 100, parseNatDigits (pad2 i) = some i := by decide

set_option maxHeartbeats 1600000 in
theorem pad2_lt : ∀ i < 100, ∀ j < 100, lexLtB (pad2 i) (pad2 j) = decide (i < j) := by
  decide

theorem pyReplaceGo_nil (old new : Str) (k : Nat) : pyReplaceGo old new k [] = [] := by
  cases k <;> rfl

theorem pyReplaceGo_md : ∀ (ws : Str) (fuel : Nat), ws.length + 1 ≤ fuel →
    (∀ c ∈ ws, ¬ c = '.') →
    pyReplaceGo (".md".data) [] fuel (ws ++ (".md".data)) = ws := by
  intro ws
  induction ws with
  | nil =>
    intro fuel hf h
    cases fuel with
    | zero => omega
    | succ f =>
      show ([] : Str) ++ pyReplaceGo (".md".data) [] f (((".md".data) : Str).drop 3) = []
      rw [List.nil_append]
      exact pyReplaceGo_nil _ _ f
  | cons c t ih =>
    intro fuel hf h
    cases fuel with
    | zero => rw [List.length_cons] at hf; omega
    | succ f =>
      have hc : ¬ c = '.' := h c (List.mem_cons_self c t)
      have hpre : ((".md".data).isPrefixOf (c :: (t ++ (".md".data)))) = false := by
        show (('.' == c) && ((['m', 'd'] : Str).isPrefixOf (t ++ (".md".data)))) = false
        rw [beq_eq_false_iff_ne.mpr (fun hh => hc hh.symm)]
        rfl
      show (if (".md".data).isPrefixOf (c :: (t ++ (".md".data))) then
              ([] : Str) ++ pyReplaceGo (".md".data) [] f ((c :: (t ++ (".md".data))).drop 3)
            else c :: pyReplaceGo (".md".data) [] f (t ++ (".md".data))) = c :: t
      rw [hpre]
      rw [if_neg Bool.false_ne_true]
      rw [ih f (by rw [List.length_cons] at hf; omega) (fun x hx => h x (List.mem_cons_of_mem c hx))]

theorem pyReplace_md (ws : Str) (hws : ∀ c ∈ ws, ¬ c = '.') :
    pyReplace (".md".data) [] (ws ++ (".md".data)) = ws := by
  unfold pyReplace
  refine pyReplaceGo_md ws _ ?_ hws
  rw [List.length_append, (show (((".md".data) : Str).length = 3) from rfl)]
  omega

theorem splitSubGo_no_sep : ∀ (ws : Str) (fuel : Nat) (acc : Str), ws.length + 1 ≤ fuel →
    (∀ c ∈ ws, ¬ c = '_') →
    splitSubGo ("_".data) fuel acc ws = [acc.reverse ++ ws] := by
  intro ws
  induction ws with
  | nil =>
    intro fuel acc hf h
    cases fuel with
    | zero => omega
    | succ f => simp [splitSubGo]
  | cons c t ih =>
    intro fuel acc hf h
    cases fuel with
    | zero => rw [List.length_cons] at hf; omega
    | succ f =>
      have hc : ¬ c = '_' := h c (List.mem_cons_self c t)
      have hpre : (("_".data).isPrefixOf (c :: t)) = false := by
        show (('_' == c) && (([] : Str).isPrefixOf t)) = false
        rw [beq_eq_false_iff_ne.mpr (fun hh => hc hh.symm)]
        rfl
      show (if ("_".data).isPrefixOf (c :: t) then
              acc.reverse :: splitSubGo ("_".data) f [] ((c :: t).drop 1)
            else splitSubGo ("_".data) f (c :: acc) t) = [acc.reverse ++ (c :: t)]
      rw [hpre]
      rw [if_neg Bool.false_ne_true]
      rw [ih f (c :: acc) (by rw [List.length_cons] at hf; omega) (fun x hx => h x (List.mem_cons_of_mem c hx))]
      simp

theorem splitSubGo_sep : ∀ (pre : Str) (fuel : Nat) (acc rest : Str),
    pre.length + 1 ≤ fuel → (∀ c ∈ pre, ¬ c = '_') →
    splitSubGo ("_".data) fuel acc (pre ++ '_' :: rest) =
      (acc.reverse ++ pre) :: splitSubGo ("_".data) (fuel - (pre.length + 1)) [] rest := by
  intro pre
  induction pre with
  | nil =>
    intro fuel acc rest hf h
    cases fuel with
    | zero => omega
    | succ f =>
      show (if ("_".data).isPrefixOf ('_' :: rest) then
              acc.reverse :: splitSubGo ("_".data) f [] (('_' :: rest).drop 1)
            else splitSubGo ("_".data) f ('_' :: acc) rest) =
          (acc.reverse ++ []) :: splitSubGo ("_".data) (f + 1 - (0 + 1)) [] rest
      rw [if_pos (by simp [List.isPrefixOf])]
      simp
  | cons c pre' ih =>
    intro fuel acc rest hf h
    cases fuel with
    | zero => rw [List.length_cons] at hf; omega
    | succ f =>
      have hc : ¬ c = '_' := h c (List.mem_cons_self c pre')
      have hpre : (("_".data).isPrefixOf (c :: (pre' ++ '_' :: rest))) = false := by
        show (('_' == c) && (([] : Str).isPrefixOf (pre' ++ '_' :: rest))) = false
        rw [beq_eq_false_iff_ne.mpr (fun hh => hc hh.symm)]
        rfl
      show (if ("_".data).isPrefixOf (c :: (pre' ++ '_' :: rest)) then
              acc.reverse :: splitSubGo ("_".data) f [] ((c :: (pre' ++ '_' :: rest)).drop 1)
            else splitSubGo ("_".data) f (c :: acc) (pre' ++ '_' :: rest)) =
          (acc.reverse ++ (c :: pre')) :: splitSubGo ("_".data)
            (f + 1 - ((c :: pre').length + 1)) [] rest
      rw [hpre]
      rw [if_neg Bool.false_ne_true]
      rw [ih f (c :: acc) rest (by rw [List.length_cons] at hf; omega)
        (fun x hx => h x (List.mem_cons_of_mem c hx))]
      have hfl : f - (pre'.length + 1) = f + 1 - ((c :: pre').length + 1) := by
        simp only [List.length_cons]; omega
      rw [hfl]
      simp

theorem splitSub_top (i : Nat) (hi : i < 100) :
    splitSub ("_".data) ("section_".data ++ pad2 i) = [("section".data), pad2 i] := by
  have h2 : (pad2 i).length = 2 := pad2_length i hi
  have hd : ∀ c ∈ pad2 i, ¬ c = '_' := fun c hc =>
    pyIsDigit_ne_us (List.all_eq_true.mp (pad2_all_digits i hi) c hc)
  have hshape : ("section_".data ++ pad2 i : Str) = ("section".data) ++ '_' :: pad2 i := rfl
  rw [hshape]
  unfold splitSub
  rw [splitSubGo_sep ("section".data) _ [] (pad2 i)
    (by simp only [List.length_append, List.length_cons, List.length_nil, h2]; omega)
    (by decide)]
  rw [splitSubGo_no_sep (pad2 i) _ []
    (by simp only [List.length_append, List.length_cons, List.length_nil, h2]; omega) hd]
  simp

theorem splitSub_sub (p j : Nat) (hp : p < 100) (hj : j < 100) :
    splitSub ("_".data) ("section_".data ++ (pad2 p ++ ("_".data ++ pad2 j))) =
      [("section".data), pad2 p, pad2 j] := by
  have h2p : (pad2 p).length = 2 := pad2_length p hp
  have h2j : (pad2 j).length = 2 := pad2_length j hj
  have hdp : ∀ c ∈ pad2 p, ¬ c = '_' := fun c hc =>
    pyIsDigit_ne_us (List.all_eq_true.mp (pad2_all_digits p hp) c hc)
  have hdj : ∀ c ∈ pad2 j, ¬ c = '_' := fun c hc =>
    pyIsDigit_ne_us (List.all_eq_true.mp (pad2_all_digits j hj) c hc)
  have hshape : ("section_".data ++ (pad2 p ++ ("_".data ++ pad2 j)) : Str) =
      ("section".data) ++ '_' :: (pad2 p ++ '_' :: pad2 j) := rfl
  rw [hshape]
  unfold splitSub
  rw [splitSubGo_sep ("section".data) _ [] (pad2 p ++ '_' :: pad2 j)
    (by simp only [List.length_append, List.length_cons, List.length_nil, h2p, h2j]; omega)
    (by decide)]
  rw [splitSubGo_sep (pad2 p) _ [] (pad2 j)
    (by simp only [List.length_append, List.length_cons, List.length_nil, h2p, h2j]; omega)
    hdp]
  rw [splitSubGo_no_sep (pad2 j) _ []
    (by simp only [List.length_append, List.length_cons, List.length_nil, h2p, h2j]; omega)
    hdj]
  simp

theorem parseSectionIdx_topName (i : Nat) (hi : i < 100) :
    parseSectionIdx (topName i) = Except.ok (i, none) := by
  have hdig : ∀ c ∈ pad2 i, pyIsDigit c = true := fun c hc =>
    List.all_eq_true.mp (pad2_all_digits i hi) c hc
  have hws : ∀ c ∈ ("section_".data ++ pad2 i : Str), ¬ c = '.' := by
    intro c hc
    rcases List.mem_append.mp hc with h | h
    · exact (by decide : ∀ c ∈ ("section_".data : Str), ¬ c = '.') c h
    · exact pyIsDigit_ne_dot (hdig c h)
  have hrepl : pyReplace (".md".data) [] (topName i) = "section_".data ++ pad2 i := by
    have hshape : topName i = ("section_".data ++ pad2 i) ++ (".md".data) := by
      unfold topName; rw [List.append_assoc]
    rw [hshape]
    exact pyReplace_md _ hws
  unfold parseSectionIdx
  rw [hrepl, splitSub_top i hi]
  simp [parseNatDigits_pad2 i hi]

theorem parseSectionIdx_subName (p j : Nat) (hp : p < 100) (hj : j < 100) :
    parseSectionIdx (subName p j) = Except.ok (p, some j) := by
  have hdp : ∀ c ∈ pad2 p, pyIsDigit c = true := fun c hc =>
    List.all_eq_true.mp (pad2_all_digits p hp) c hc
  have hdj : ∀ c ∈ pad2 j, pyIsDigit c = true := fun c hc =>
    List.all_eq_true.mp (pad2_all_digits j hj) c hc
  have hws : ∀ c ∈ ("section_".data ++ (pad2 p ++ ("_".data ++ pad2 j)) : Str), ¬ c = '.' := by
    intro c hc
    rcases List.mem_append.mp hc with h | h
    · exact (by decide : ∀ c ∈ ("section_".data : Str), ¬ c = '.') c h
    · rcases List.mem_append.mp h with h' | h'
      · exact pyIsDigit_ne_dot (hdp c h')
      · rcases List.mem_append.mp h' with h'' | h''
        · exact (by decide : ∀ c ∈ ("_".data : Str), ¬ c = '.') c h''
        · exact pyIsDigit_ne_dot (hdj c h'')
  have hrepl : pyReplace (".md".data) [] (subName p j) =
      "section_".data ++ (pad2 p ++ ("_".data ++ pad2 j)) := by
    have hshape : subName p j =
        ("section_".data ++ (pad2 p ++ ("_".data ++ pad2 j))) ++ (".md".data) := by
      unfold subName
      simp [List.append_assoc]
    rw [hshape]
    exact pyReplace_md _ hws
  unfold parseSectionIdx
  rw [hrepl, splitSub_sub p j hp hj]
  simp [parseNatDigits_pad2 p hp, parseNatDigits_pad2 j hj]

theorem isSectionFile_topName (i : Nat) : isSectionFile (topName i) = true := by
  unfold isSectionFile topName
  rw [Bool.and_eq_true]
  constructor
  · rw [List.isPrefixOf_iff_prefix]
    exact List.prefix_append _ _
  · rw [List.isSuffixOf_iff_suffix]
    exact (List.suffix_append _ _).trans (List.suffix_append _ _)

theorem isSectionFile_subName (p j : Nat) : isSectionFile (subName p j) = true := by
  unfold isSectionFile subName
  rw [Bool.and_eq_true]
  constructor
  · rw [List.isPrefixOf_iff_prefix]
    exact List.prefix_append _ _
  · rw [List.isSuffixOf_iff_suffix]
    exact (((List.suffix_append _ _).trans (List.suffix_append _ _)).trans
      (List.suffix_append _ _)).trans (List.suffix_append _ _)

theorem nameKey_topName (i : Nat) (hi : i < 100) : nameKey (topName i) = (i, none) := by
  unfold nameKey
  rw [parseSectionIdx_topName i hi]
  rfl

theorem nameKey_subName (p j : Nat) (hp : p < 100) (hj : j < 100) :
    nameKey (subName p j) = (p, some j) := by
  unfold nameKey
  rw [parseSectionIdx_subName p j hp hj]
  rfl

theorem parseSectionIdx_wf {nm : Str} (h : wfName nm) :
    parseSectionIdx nm = Except.ok (nameKey nm) := by
  rcases h with ⟨i, hi, rfl⟩ | ⟨p, j, hp, hj, rfl⟩
  · rw [parseSectionIdx_topName i hi, nameKey_topName i hi]
  · rw [parseSectionIdx_subName p j hp hj, nameKey_subName p j hp hj]

theorem lexLtB_us_dot (A B : Str) : lexLtB ('_' :: A) ('.' :: B) = false := by
  rw [lexLtB_cons, if_neg (by decide : ¬ ('_' < '.')), if_pos (by decide : ('.' < '_'))]

theorem lexLtB_dot_us (A B : Str) : lexLtB ('.' :: A) ('_' :: B) = true := by
  rw [lexLtB_cons, if_pos (by decide : ('.' < '_'))]

theorem lexLtB_topName_topName (i i' : Nat) (hi : i < 100) (hi' : i' < 100) :
    lexLtB (topName i) (topName i') = decide (i < i') := by
  unfold topName
  rw [lexLtB_append_left]
  rw [lexLtB_append_pair _ _ _ _ (by rw [pad2_length i hi, pad2_length i' hi'])]
  rw [pad2_lt i hi i' hi', lexLtB_irrefl]
  simp

theorem lexLtB_subName_topName (p j i : Nat) (hp : p < 100) (hi : i < 100) :
    lexLtB (subName p j) (topName i) = decide (p < i) := by
  unfold subName topName
  rw [lexLtB_append_left]
  rw [lexLtB_append_pair _ _ _ _ (by rw [pad2_length p hp, pad2_length i hi])]
  rw [(show ("_".data ++ (pad2 j ++ (".md".data)) : Str) = '_' :: (pad2 j ++ (".md".data))
    from rfl)]
  rw [(show ((".md".data) : Str) = '.' :: ('m' :: ('d' :: [])) from rfl)]
  rw [lexLtB_us_dot]
  rw [pad2_lt p hp i hi]
  simp

theorem lexLtB_topName_subName (i p j : Nat) (hi : i < 100) (hp : p < 100) :
    lexLtB (topName i) (subName p j) = (decide (i < p) || !(decide (p < i))) := by
  unfold subName topName
  rw [lexLtB_append_left]
  rw [lexLtB_append_pair _ _ _ _ (by rw [pad2_length i hi, pad2_length p hp])]
  rw [(show ("_".data ++ (pad2 j ++ (".md".data)) : Str) = '_' :: (pad2 j ++ (".md".data))
    from rfl)]
  rw [(show ((".md".data) : Str) = '.' :: ('m' :: ('d' :: [])) from rfl)]
  rw [lexLtB_dot_us]
  rw [pad2_lt i hi p hp, pad2_lt p hp i hi]
  simp

theorem lexLtB_subName_subName (p j p' j' : Nat) (hp : p < 100) (hj : j < 100)
    (hp' : p' < 100) (hj' : j' < 100) :
    lexLtB (subName p j) (subName p' j') =
      (decide (p < p') || (!(decide (p' < p)) && decide (j < j'))) := by
  unfold subName
  rw [lexLtB_append_left]
  rw [lexLtB_append_pair _ _ _ _ (by rw [pad2_length p hp, pad2_length p' hp'])]
  rw [(show ("_".data ++ (pad2 j ++ (".md".data)) : Str) = '_' :: (pad2 j ++ (".md".data))
    from rfl)]
  rw [(show ("_".data ++ (pad2 j' ++ (".md".data)) : Str) = '_' :: (pad2 j' ++ (".md".data))
    from rfl)]
  rw [lexLtB_cons_same]
  rw [lexLtB_append_pair _ _ _ _ (by rw [pad2_length j hj, pad2_length j' hj'])]
  rw [pad2_lt p hp p' hp', pad2_lt p' hp' p hp, pad2_lt j hj j' hj', lexLtB_irrefl]
  simp

theorem keyLe_of_lexLeP : ∀ {a b : Str}, wfName a → wfName b → lexLeP a b →
    keyLe (nameKey a) (nameKey b) = true := by
  intro a b ha hb hab
  have h : lexLtB b a = false := by
    unfold lexLeP lexLeB at hab
    rwa [Bool.not_eq_true'] at hab
  rcases ha with ⟨i, hi, rfl⟩ | ⟨p, j, hp, hj, rfl⟩ <;>
    rcases hb with ⟨i', hi', rfl⟩ | ⟨p', j', hp', hj', rfl⟩
  · rw [lexLtB_topName_topName i' i hi' hi] at h
    rw [nameKey_topName i hi, nameKey_topName i' hi']
    unfold keyLe
    simp only [decide_eq_false_iff_not] at h
    simp
    omega
  · rw [lexLtB_subName_topName p' j' i hp' hi] at h
    rw [nameKey_topName i hi, nameKey_subName p' j' hp' hj']
    unfold keyLe
    simp only [decide_eq_false_iff_not] at h
    simp
    omega
  · rw [lexLtB_topName_subName i' p j hi' hp] at h
    rw [nameKey_subName p j hp hj, nameKey_topName i' hi']
    unfold keyLe
    simp at h
    simp
    omega
  · rw [lexLtB_subName_subName p' j' p j hp' hj' hp hj] at h
    rw [nameKey_subName p j hp hj, nameKey_subName p' j' hp' hj']
    unfold keyLe
    simp at h
    simp
    omega

theorem mapM_ok_of_forall {α β : Type} (f : α → Except Str β) (g : α → β) :
    ∀ l : List α, (∀ x ∈ l, f x = Except.ok (g x)) → l.mapM f = Except.ok (l.map g) := by
  intro l
  induction l with
  | nil => intro h; rfl
  | cons a l ih =>
    intro h
    rw [List.mapM_cons, h a (List.mem_cons_self a l),
      ih (fun x hx => h x (List.mem_cons_of_mem a hx))]
    rfl

theorem get_generated_sections_eq (st : FileStore)
    (hwf : ∀ nm ∈ (List.insertionSort lexLeP (storeNames st)).filter isSectionFile, wfName nm) :
    get_generated_sections st =
      Except.ok (((List.insertionSort lexLeP (storeNames st)).filter isSectionFile).map
        (recOf st)) := by
  unfold get_generated_sections
  dsimp only
  refine mapM_ok_of_forall _ (recOf st) _ (fun nm hnm => ?_)
  rw [parseSectionIdx_wf (hwf nm hnm)]
  rfl

theorem storeNames_write (st : FileStore) (n c : Str) :
    storeNames (storeWrite st n c) = storeNames st ∨
    storeNames (storeWrite st n c) = storeNames st ++ [n] := by
  unfold storeWrite
  by_cases h : st.any (fun p => p.1 == n)
  · left
    rw [if_pos h]
    unfold storeNames
    rw [List.map_map]
    refine List.map_congr_left (fun p _ => ?_)
    by_cases hpn : (p.1 == n) = true
    · have heq := beq_iff_eq.mp hpn
      simp [heq]
    · have hne' : ¬ p.1 = n := fun hh => hpn (beq_iff_eq.mpr hh)
      simp [hne']
  · right
    rw [if_neg h]
    unfold storeNames
    rw [List.map_append]
    rfl

theorem storeRead_write_ne (st : FileStore) (n c m : Str) (hne : ¬ m = n) :
    storeRead (storeWrite st n c) m = storeRead st m := by
  unfold storeWrite storeRead
  by_cases h : st.any (fun p => p.1 == n)
  · rw [if_pos h]
    clear h
    induction st with
    | nil => rfl
    | cons p t ih =>
      rw [List.map_cons]
      by_cases hpn : (p.1 == n) = true
      · rw [if_pos hpn]
        have hpm : (p.1 == m) = false := by
          rw [beq_eq_false_iff_ne]
          intro hh
          exact hne (hh.symm.trans (beq_iff_eq.mp hpn))
        rw [List.find?_cons_of_neg _ (by simp [hpm]),
          List.find?_cons_of_neg _ (by simp [hpm])]
        exact ih
      · rw [if_neg hpn]
        by_cases hpm : (p.1 == m) = true
        · rw [List.find?_cons_of_pos _ (by simp [hpm]),
            List.find?_cons_of_pos _ (by simp [hpm])]
        · rw [List.find?_cons_of_neg _ (by simp [hpm]),
            List.find?_cons_of_neg _ (by simp [hpm])]
          exact ih
  · rw [if_neg h]
    clear h
    induction st with
    | nil =>
      rw [List.nil_append]
      rw [List.find?_cons_of_neg _
        (by simp [beq_eq_false_iff_ne.mpr (fun hh : n = m => hne hh.symm)])]
    | cons p t ih =>
      rw [List.cons_append]
      by_cases hpm : (p.1 == m) = true
      · rw [List.find?_cons_of_pos _ (by simp [hpm]),
          List.find?_cons_of_pos _ (by simp [hpm])]
      · rw [List.find?_cons_of_neg _ (by simp [hpm]),
          List.find?_cons_of_neg _ (by simp [hpm])]
        exact ih

/-- Claim C7: on a store whose `section_*.md` files are the zero-padded
two-digit names `save_section` writes, `assemble_full_report`
deterministically returns the outline title and summary header followed by
the persisted section contents in sorted file-name order; that order lists
records by ascending section index, each top-level record before its own
subsections and subsections ascending (`keyLe` on the parsed index pairs);
the result is written to `full_report.md` and returned; and a second call
on the written store returns byte-identical output. -/
theorem C7_assemble_deterministic_sorted_idempotent (st : FileStore)
    (outline : ReportOutline)
    (hwf : ∀ nm ∈ storeNames st, isSectionFile nm = true → wfName nm) :
    ∃ recs : List SectionRec,
      get_generated_sections st = Except.ok recs ∧
      recs.map SectionRec.filename =
        (List.insertionSort lexLeP (storeNames st)).filter isSectionFile ∧
      (recs.map SectionRec.filename).Perm ((storeNames st).filter isSectionFile) ∧
      (recs.map (fun r => (r.section_index, r.subsection_index))).Pairwise
        (fun a b => keyLe a b = true) ∧
      (∀ r ∈ recs, r.content = (storeRead st r.filename).getD []) ∧
      assemble_full_report st outline = Except.ok
        (reportHeader outline ++ (recs.map SectionRec.content).flatten,
         storeWrite st ("full_report.md".data)
           (reportHeader outline ++ (recs.map SectionRec.content).flatten)) ∧
      assemble_full_report
          (storeWrite st ("full_report.md".data)
            (reportHeader outline ++ (recs.map SectionRec.content).flatten)) outline =
        Except.ok
          (reportHeader outline ++ (recs.map SectionRec.content).flatten,
           storeWrite
             (storeWrite st ("full_report.md".data)
               (reportHeader outline ++ (recs.map SectionRec.content).flatten))
             ("full_report.md".data)
             (reportHeader outline ++ (recs.map SectionRec.content).flatten)) := by
  haveI := lexLeP_total
  haveI := lexLeP_transitive
  haveI := lexLeP_antisymmetric
  set F := (List.insertionSort lexLeP (storeNames st)).filter isSectionFile with hFdef
  have hwfF : ∀ nm ∈ F, wfName nm := by
    intro nm hnm
    rw [hFdef] at hnm
    have h1 := List.mem_filter.mp hnm
    exact hwf nm ((List.perm_insertionSort lexLeP (storeNames st)).mem_iff.mp h1.1) h1.2
  have hsAll : List.Pairwise lexLeP (List.insertionSort lexLeP (storeNames st)) :=
    List.sorted_insertionSort lexLeP (storeNames st)
  have hsortedF : List.Pairwise lexLeP F := by
    rw [hFdef]
    exact hsAll.filter _
  have hmapF : (F.map (recOf st)).map SectionRec.filename = F := by
    rw [List.map_map]
    rw [(show (SectionRec.filename ∘ recOf st) = fun n => n from rfl)]
    exact List.map_id F
  have hgen : get_generated_sections st = Except.ok (F.map (recOf st)) := by
    rw [hFdef]
    exact get_generated_sections_eq st (by rw [← hFdef]; exact hwfF)
  have hkeys : ((F.map (recOf st)).map
      (fun r => (r.section_index, r.subsection_index))).Pairwise
      (fun a b => keyLe a b = true) := by
    rw [List.map_map]
    rw [(show ((fun r : SectionRec => (r.section_index, r.subsection_index)) ∘ recOf st) =
      fun n => nameKey n from rfl)]
    rw [List.pairwise_map]
    exact hsortedF.imp_of_mem (fun ha hb hr => keyLe_of_lexLeP (hwfF _ ha) (hwfF _ hb) hr)
  have hasm : ∀ st' : FileStore, get_generated_sections st' = Except.ok (F.map (recOf st)) →
      assemble_full_report st' outline = Except.ok
        (reportHeader outline ++ ((F.map (recOf st)).map SectionRec.content).flatten,
         storeWrite st' ("full_report.md".data)
           (reportHeader outline ++ ((F.map (recOf st)).map SectionRec.content).flatten)) := by
    intro st' hg
    unfold assemble_full_report
    rw [hg]
    rfl
  have hfr : isSectionFile ("full_report.md".data) = false := by decide
  set md := reportHeader outline ++ ((F.map (recOf st)).map SectionRec.content).flatten
    with hmddef
  set st2 := storeWrite st ("full_report.md".data) md with hst2def
  have hF2 : (List.insertionSort lexLeP (storeNames st2)).filter isSectionFile = F := by
    rcases storeNames_write st ("full_report.md".data) md with hEq | hEq
    · rw [hst2def, hEq, ← hFdef]
    · rw [hst2def, hEq]
      have hs1 : List.Pairwise lexLeP ((List.insertionSort lexLeP
          (storeNames st ++ [("full_report.md".data)])).filter isSectionFile) := by
        have hsA : List.Pairwise lexLeP (List.insertionSort lexLeP
            (storeNames st ++ [("full_report.md".data)])) :=
          List.sorted_insertionSort lexLeP (storeNames st ++ [("full_report.md".data)])
        exact hsA.filter _
      have hp1 : ((List.insertionSort lexLeP
          (storeNames st ++ [("full_report.md".data)])).filter isSectionFile).Perm
          ((storeNames st ++ [("full_report.md".data)]).filter isSectionFile) :=
        (List.perm_insertionSort _ _).filter _
      have hsplit : (storeNames st ++ [("full_report.md".data)]).filter isSectionFile =
          (storeNames st).filter isSectionFile := by
        rw [List.filter_append]
        simp [hfr]
      have hp2 : F.Perm ((storeNames st).filter isSectionFile) := by
        rw [hFdef]
        exact (List.perm_insertionSort _ _).filter _
      refine List.eq_of_perm_of_sorted ?_ hs1 hsortedF
      rw [hsplit] at hp1
      exact hp1.trans hp2.symm
  have hwfF2 : ∀ nm ∈ (List.insertionSort lexLeP (storeNames st2)).filter isSectionFile,
      wfName nm := by
    rw [hF2]
    exact hwfF
  have hrec2 : ((List.insertionSort lexLeP (storeNames st2)).filter isSectionFile).map
      (recOf st2) = F.map (recOf st) := by
    rw [hF2]
    refine List.map_congr_left (fun nm hnm => ?_)
    have hsec : isSectionFile nm = true := by
      rw [hFdef] at hnm
      exact (List.mem_filter.mp hnm).2
    have hne : ¬ nm = ("full_report.md".data) := by
      intro he
      rw [he, hfr] at hsec
      exact Bool.false_ne_true hsec
    unfold recOf
    rw [hst2def, storeRead_write_ne st ("full_report.md".data) md nm hne]
  have hgen2 : get_generated_sections st2 = Except.ok (F.map (recOf st)) := by
    rw [get_generated_sections_eq st2 hwfF2, hrec2]
  refine ⟨F.map (recOf st), hgen, hmapF, ?_, hkeys, ?_, ?_, ?_⟩
  · rw [hmapF, hFdef]
    exact (List.perm_insertionSort _ _).filter _
  · intro r hr
    obtain ⟨n, hn, rfl⟩ := List.mem_map.mp hr
    rfl
  · exact hasm st hgen
  · exact hasm st2 hgen2

/-- Witness for C7 at the concrete two-file store (a subsection record
stored before its parent): the hypothesis holds and the assembly
conclusions follow. -/
theorem C7_witness :
    (∀ nm ∈ storeNames c7wSt, isSectionFile nm = true → wfName nm) ∧
    (∃ recs : List SectionRec,
      get_generated_sections c7wSt = Except.ok recs ∧
      recs.map SectionRec.filename =
        (List.insertionSort lexLeP (storeNames c7wSt)).filter isSectionFile ∧
      (recs.map SectionRec.filename).Perm ((storeNames c7wSt).filter isSectionFile) ∧
      (recs.map (fun r => (r.section_index, r.subsection_index))).Pairwise
        (fun a b => keyLe a b = true) ∧
      (∀ r ∈ recs, r.content = (storeRead c7wSt r.filename).getD []) ∧
      assemble_full_report c7wSt c7Outline = Except.ok
        (reportHeader c7Outline ++ (recs.map SectionRec.content).flatten,
         storeWrite c7wSt ("full_report.md".data)
           (reportHeader c7Outline ++ (recs.map SectionRec.content).flatten)) ∧
      assemble_full_report
          (storeWrite c7wSt ("full_report.md".data)
            (reportHeader c7Outline ++ (recs.map SectionRec.content).flatten)) c7Outline =
        Except.ok
          (reportHeader c7Outline ++ (recs.map SectionRec.content).flatten,
           storeWrite
             (storeWrite c7wSt ("full_report.md".data)
               (reportHeader c7Outline ++ (recs.map SectionRec.content).flatten))
             ("full_report.md".data)
             (reportHeader c7Outline ++ (recs.map SectionRec.content).flatten))) := by
  have hwf : ∀ nm ∈ storeNames c7wSt, isSectionFile nm = true → wfName nm := by
    intro nm hnm _
    have hcases : nm = ("section_01_02.md".data) ∨ nm = ("section_01.md".data) := by
      simp [c7wSt, storeNames] at hnm
      exact hnm
    rcases hcases with rfl | rfl
    · exact Or.inr ⟨1, 2, by omega, by omega, rfl⟩
    · exact Or.inl ⟨1, by omega, rfl⟩
  exact ⟨hwf, C7_assemble_deterministic_sorted_idempotent c7wSt c7Outline hwf⟩
